import Mathlib

/-!
# Alertmanager client configuration (`pkg/alert/config.go`)

A shallow embedding of `BuildAlertmanagerConfig` together with the two
standard-library routines that decide its behaviour, `url.Parse` and
`net.SplitHostPort`.

A Go `string` is a sequence of bytes.  It is represented by a Lean `String`
holding one character per byte, so ASCII text stands for itself.  Durations are
Go `int64` nanosecond counts and are represented by `Int`; the code only copies
them.  Slices are lists; the `nil` slice and the empty slice are both `[]`.
-/

namespace Alert

/-! ## Byte-string primitives (`strings`, `bytealg`) -/

/-- Index of the first occurrence of the byte `c`, as `strings.IndexByte`
(`none` stands for `-1`). -/
def indexByte (c : Char) : List Char → Option Nat
  | [] => none
  | x :: xs => if x = c then some 0 else (indexByte c xs).map (· + 1)

/-- Index of the last occurrence of the byte `c`, as `strings.LastIndex` with a
one-byte separator (`none` stands for `-1`). -/
def lastIndexByte (c : Char) : List Char → Option Nat
  | [] => none
  | x :: xs =>
    match lastIndexByte c xs with
    | some i => some (i + 1)
    | none => if x = c then some 0 else none

/-- Index of the first occurrence of the substring `sub`, as `strings.Index`. -/
def indexOf (sub : List Char) : List Char → Option Nat
  | [] => if sub.isEmpty then some 0 else none
  | x :: xs =>
    if sub.isPrefixOf (x :: xs) then some 0 else (indexOf sub xs).map (· + 1)

/-- Split around the first occurrence of the byte `c`, dropping it, as
`strings.Cut`; without an occurrence the whole input is the first half. -/
def cut (c : Char) (s : List Char) : List Char × List Char :=
  match indexByte c s with
  | some i => (s.take i, s.drop (i + 1))
  | none => (s, [])

/-- ASCII lower-casing of one byte. -/
def lowerByte (c : Char) : Char :=
  if 'A' ≤ c ∧ c ≤ 'Z' then Char.ofNat (c.toNat + 32) else c

/-- The function `strings.ToLower` on ASCII input.  It is only ever applied to
URL schemes, which `getScheme` restricts to ASCII letters, digits and `+-.`. -/
def ToLower (s : String) : String := ⟨s.data.map lowerByte⟩

/-- The function `strings.HasPrefix`. -/
def HasPrefix (s pre : String) : Bool := pre.data.isPrefixOf s.data

/-- The function `strings.TrimPrefix`: `s` without the leading `pre` when it
has it, `s` itself otherwise. -/
def TrimPrefix (s pre : String) : String :=
  if HasPrefix s pre then ⟨s.data.drop pre.data.length⟩ else s

/-- The function `strconv.Itoa`. -/
def Itoa (n : Int) : String :=
  match n with
  | Int.ofNat m => ⟨Nat.toDigits 10 m⟩
  | Int.negSucc m => ⟨'-' :: Nat.toDigits 10 (m + 1)⟩

/-! ## `net/url`: the parts of `url.Parse` that decide success and the fields
`Scheme`, `User`, `Host` and `Path`, after the Go standard library -/

/-- The error values `url.Parse` wraps: `errors.New` messages, `EscapeError`,
`InvalidHostError` and the formatted invalid-port error. -/
inductive ParseErr where
  | msg (text : String)
  | escapeError (s : String)
  | invalidHostError (s : String)
  | invalidPort (colonPort : String)
  deriving DecidableEq

/-- The type `url.Error`: operation, URL text and underlying error. -/
structure Error where
  Op : String
  URL : String
  Err : ParseErr
  deriving DecidableEq

/-- The type `url.Userinfo`.  The password is `none` when it is not set; the
constructors `url.User` and `url.UserPassword` build nothing else. -/
structure Userinfo where
  username : String
  password : Option String
  deriving DecidableEq

/-- The fields of `url.URL` that `BuildAlertmanagerConfig` reads. -/
structure URL where
  Scheme : String
  User : Option Userinfo
  Host : String
  Path : String
  deriving DecidableEq

/-- Escaping modes of `net/url` used while parsing. -/
inductive Encoding where
  | encodePath
  | encodeHost
  | encodeZone
  | encodeUserPassword
  | encodeFragment
  deriving DecidableEq

def isAlnum (c : Char) : Bool :=
  ('a' ≤ c ∧ c ≤ 'z') ∨ ('A' ≤ c ∧ c ≤ 'Z') ∨ ('0' ≤ c ∧ c ≤ '9')

def ishex (c : Char) : Bool :=
  ('0' ≤ c ∧ c ≤ '9') ∨ ('a' ≤ c ∧ c ≤ 'f') ∨ ('A' ≤ c ∧ c ≤ 'F')

def unhex (c : Char) : Nat :=
  if '0' ≤ c ∧ c ≤ '9' then c.toNat - 48
  else if 'a' ≤ c ∧ c ≤ 'f' then c.toNat - 97 + 10
  else if 'A' ≤ c ∧ c ≤ 'F' then c.toNat - 65 + 10
  else 0

/-- The function `shouldEscape`, for the modes met while parsing and while
printing user-info. -/
def shouldEscape (c : Char) (mode : Encoding) : Bool :=
  if isAlnum c then false
  else if (mode = .encodeHost ∨ mode = .encodeZone) ∧
      c ∈ ['!', '$', '&', '\'', '(', ')', '*', '+', ',', ';', '=', ':', '[', ']', '<', '>', '"'] then
    false
  else if c ∈ ['-', '_', '.', '~'] then false
  else if c ∈ ['$', '&', '+', ',', '/', ':', ';', '=', '?', '@'] then
    match mode with
    | .encodePath => c = '?'
    | .encodeUserPassword => c = '@' ∨ c = '/' ∨ c = '?' ∨ c = ':'
    | .encodeFragment => false
    | _ => true
  else if mode = .encodeFragment ∧ c ∈ ['!', '(', ')', '*'] then false
  else true

/-- First pass of `unescape`: checks that every `%` starts a well-formed escape
and that host bytes are legal; `none` when the text is fine. -/
def unescapeCheck (mode : Encoding) : List Char → Option ParseErr
  | [] => none
  | '%' :: a :: b :: rest =>
    if ¬ ishex a ∨ ¬ ishex b then some (.escapeError ⟨['%', a, b]⟩)
    else if mode = .encodeHost ∧ unhex a < 8 ∧ ['%', a, b] ≠ ['%', '2', '5'] then
      some (.escapeError ⟨['%', a, b]⟩)
    else if mode = .encodeZone ∧ ['%', a, b] ≠ ['%', '2', '5'] ∧
        unhex a * 16 + unhex b ≠ 32 ∧
        shouldEscape (Char.ofNat (unhex a * 16 + unhex b)) .encodeHost then
      some (.escapeError ⟨['%', a, b]⟩)
    else unescapeCheck mode rest
  | '%' :: rest => some (.escapeError ⟨'%' :: rest⟩)
  | c :: rest =>
    if (mode = .encodeHost ∨ mode = .encodeZone) ∧ c.toNat < 128 ∧
        shouldEscape c .encodeHost then
      some (.invalidHostError ⟨[c]⟩)
    else unescapeCheck mode rest

/-- Second pass of `unescape`: replaces each `%XY` by the byte it denotes. -/
def unescapeDecode : List Char → List Char
  | [] => []
  | '%' :: a :: b :: rest => Char.ofNat (unhex a * 16 + unhex b) :: unescapeDecode rest
  | c :: rest => c :: unescapeDecode rest

/-- The function `unescape` of `net/url`. -/
def unescape (s : List Char) (mode : Encoding) : Except ParseErr (List Char) :=
  match unescapeCheck mode s with
  | some e => .error e
  | none => .ok (unescapeDecode s)

/-- Upper-case hexadecimal digit, the table `"0123456789ABCDEF"`. -/
def upperhex (n : Nat) : Char :=
  if n < 10 then Char.ofNat (48 + n) else Char.ofNat (55 + n)

/-- The function `escape` of `net/url` for the modes other than the query
component: every byte that `shouldEscape` names becomes `%XY`. -/
def escape (s : List Char) (mode : Encoding) : List Char :=
  s.flatMap fun c =>
    if shouldEscape c mode then ['%', upperhex (c.toNat / 16), upperhex (c.toNat % 16)]
    else [c]

/-- The method `(*Userinfo).String` on a receiver that may be nil. -/
def UserinfoString (u : Option Userinfo) : String :=
  match u with
  | none => ""
  | some u =>
    match u.password with
    | some pw =>
      ⟨escape u.username.data .encodeUserPassword ++ ':' :: escape pw.data .encodeUserPassword⟩
    | none => ⟨escape u.username.data .encodeUserPassword⟩

/-- The method `(*Userinfo).Username`. -/
def UserinfoUsername (u : Userinfo) : String := u.username

/-- The method `(*Userinfo).Password`: the password and whether it is set. -/
def UserinfoPassword (u : Userinfo) : String × Bool :=
  match u.password with
  | some pw => (pw, true)
  | none => ("", false)

/-- The function `stringContainsCTLByte`. -/
def stringContainsCTLByte (s : List Char) : Bool :=
  s.any fun c => c.toNat < 32 ∨ c.toNat = 127

def isLetter (c : Char) : Bool := ('a' ≤ c ∧ c ≤ 'z') ∨ ('A' ≤ c ∧ c ≤ 'Z')

def isSchemeTail (c : Char) : Bool :=
  ('0' ≤ c ∧ c ≤ '9') ∨ c = '+' ∨ c = '-' ∨ c = '.'

/-- The loop of `getScheme` from byte `i` on; `atStart` says `i = 0`, `seen` is
`rawURL[:i]` and `raw` the whole input. -/
def getSchemeLoop (raw : List Char) (atStart : Bool) (seen : List Char) :
    List Char → Except ParseErr (List Char × List Char)
  | [] => .ok ([], raw)
  | c :: rest =>
    if isLetter c then getSchemeLoop raw false (seen ++ [c]) rest
    else if isSchemeTail c then
      if atStart then .ok ([], raw) else getSchemeLoop raw false (seen ++ [c]) rest
    else if c = ':' then
      if atStart then .error (.msg "missing protocol scheme") else .ok (seen, rest)
    else .ok ([], raw)

/-- The function `getScheme`: scheme and remainder, the scheme empty when the
input has none. -/
def getScheme (rawURL : List Char) : Except ParseErr (List Char × List Char) :=
  getSchemeLoop rawURL true [] rawURL

/-- The function `validOptionalPort`. -/
def validOptionalPort : List Char → Bool
  | [] => true
  | c :: digits => c = ':' ∧ digits.all fun b => '0' ≤ b ∧ b ≤ '9'

/-- The function `parseHost`. -/
def parseHost (host : List Char) : Except ParseErr (List Char) :=
  if host.head? = some '[' then
    match lastIndexByte ']' host with
    | none => .error (.msg "missing ']' in host")
    | some i =>
      let colonPort := host.drop (i + 1)
      if ¬ validOptionalPort colonPort then .error (.invalidPort ⟨colonPort⟩)
      else
        match indexOf ['%', '2', '5'] (host.take i) with
        | some zone =>
          match unescape (host.take zone) .encodeHost with
          | .error e => .error e
          | .ok host1 =>
            match unescape ((host.take i).drop zone) .encodeZone with
            | .error e => .error e
            | .ok host2 =>
              match unescape (host.drop i) .encodeHost with
              | .error e => .error e
              | .ok host3 => .ok (host1 ++ host2 ++ host3)
        | none => unescape host .encodeHost
  else
    match lastIndexByte ':' host with
    | some i =>
      let colonPort := host.drop i
      if ¬ validOptionalPort colonPort then .error (.invalidPort ⟨colonPort⟩)
      else unescape host .encodeHost
    | none => unescape host .encodeHost

/-- The function `validUserinfo`. -/
def validUserinfo (s : List Char) : Bool :=
  s.all fun r =>
    isAlnum r ∨ r ∈ ['-', '.', '_', ':', '~', '!', '$', '&', '\'', '(', ')', '*', '+', ',',
      ';', '=', '%', '@']

/-- The function `parseAuthority`: user-info and host of `[userinfo@]host`. -/
def parseAuthority (authority : List Char) : Except ParseErr (Option Userinfo × List Char) :=
  let i := lastIndexByte '@' authority
  let hostText := match i with
    | none => authority
    | some i => authority.drop (i + 1)
  match parseHost hostText with
  | .error e => .error e
  | .ok host =>
    match i with
    | none => .ok (none, host)
    | some i =>
      let userinfo := authority.take i
      if ¬ validUserinfo userinfo then .error (.msg "net/url: invalid userinfo")
      else
        match indexByte ':' userinfo with
        | none =>
          match unescape userinfo .encodeUserPassword with
          | .error e => .error e
          | .ok name => .ok (some ⟨⟨name⟩, none⟩, host)
        | some k =>
          match unescape (userinfo.take k) .encodeUserPassword with
          | .error e => .error e
          | .ok username =>
            match unescape (userinfo.drop (k + 1)) .encodeUserPassword with
            | .error e => .error e
            | .ok password => .ok (some ⟨⟨username⟩, some ⟨password⟩⟩, host)

/-- The body of `parse` (with `viaRequest = false`) after the scheme has been
split off and lower-cased: query removal, the opaque and relative cases, the
authority and the path. -/
def parseAfterScheme (scheme : String) (afterScheme : List Char) : Except ParseErr URL :=
  let rest := (cut '?' afterScheme).1
  if rest.head? ≠ some '/' ∧ scheme ≠ "" then
    .ok { Scheme := scheme, User := none, Host := "", Path := "" }
  else if rest.head? ≠ some '/' ∧ ':' ∈ (cut '/' rest).1 then
    .error (.msg "first path segment in URL cannot contain colon")
  else if (scheme ≠ "" ∨ ¬ ['/', '/', '/'].isPrefixOf rest) ∧ ['/', '/'].isPrefixOf rest then
    let authority0 := rest.drop 2
    let (authority, path) := match indexByte '/' authority0 with
      | some i => (authority0.take i, authority0.drop i)
      | none => (authority0, [])
    match parseAuthority authority with
    | .error e => .error e
    | .ok (user, host) =>
      match unescape path .encodePath with
      | .error e => .error e
      | .ok p => .ok { Scheme := scheme, User := user, Host := ⟨host⟩, Path := ⟨p⟩ }
  else
    match unescape rest .encodePath with
    | .error e => .error e
    | .ok p => .ok { Scheme := scheme, User := none, Host := "", Path := ⟨p⟩ }

/-- The function `parse` of `net/url` with `viaRequest = false`. -/
def parse (rawURL : List Char) : Except ParseErr URL :=
  if stringContainsCTLByte rawURL then
    .error (.msg "net/url: invalid control character in URL")
  else if rawURL = ['*'] then
    .ok { Scheme := "", User := none, Host := "", Path := "*" }
  else
    match getScheme rawURL with
    | .error e => .error e
    | .ok (scheme, rest) => parseAfterScheme (ToLower ⟨scheme⟩) rest

/-- The function `url.Parse`: the fragment is cut off and must unescape, the
rest goes through `parse`; a failure is wrapped in a `url.Error`. -/
def Parse (rawURL : String) : Except Error URL :=
  let (u, frag) := cut '#' rawURL.data
  match parse u with
  | .error e => .error ⟨"parse", ⟨u⟩, e⟩
  | .ok url =>
    if frag = [] then .ok url
    else
      match unescape frag .encodeFragment with
      | .error e => .error ⟨"parse", rawURL, e⟩
      | .ok _ => .ok url

/-! ## `net.SplitHostPort` -/

/-- The type `net.AddrError`. -/
structure AddrError where
  Err : String
  Addr : String
  deriving DecidableEq

/-- The function `net.SplitHostPort`. -/
def SplitHostPort (hostport : String) : Except AddrError (String × String) :=
  let hp := hostport.data
  match lastIndexByte ':' hp with
  | none => .error ⟨"missing port in address", hostport⟩
  | some i =>
    let bracketed : Except AddrError (List Char × Nat × Nat) :=
      if hp.head? = some '[' then
        match indexByte ']' hp with
        | none => .error ⟨"missing ']' in address", hostport⟩
        | some e =>
          if e + 1 = hp.length then .error ⟨"missing port in address", hostport⟩
          else if e + 1 = i then .ok ((hp.take e).drop 1, 1, e + 1)
          else if hp.get? (e + 1) = some ':' then
            .error ⟨"too many colons in address", hostport⟩
          else .error ⟨"missing port in address", hostport⟩
      else if (indexByte ':' (hp.take i)).isSome then
        .error ⟨"too many colons in address", hostport⟩
      else .ok (hp.take i, 0, 0)
    match bracketed with
    | .error e => .error e
    | .ok (host, j, k) =>
      if (indexByte '[' (hp.drop j)).isSome then
        .error ⟨"unexpected '[' in address", hostport⟩
      else if (indexByte ']' (hp.drop k)).isSome then
        .error ⟨"unexpected ']' in address", hostport⟩
      else .ok (⟨host⟩, ⟨hp.drop (i + 1)⟩)

/-! ## Types of `pkg/http` and `pkg/discovery/dns` used by the configuration -/

/-- Modelled from the spec: `http_util.BasicAuth` is declared in `pkg/http`,
outside the sources at hand.  The spec gives it a username and a password,
"both empty strings when absent"; the Thanos declaration also has a password
file. -/
structure BasicAuth where
  Username : String
  Password : String
  PasswordFile : String
  deriving DecidableEq

/-- Modelled from the spec: `http_util.TLSConfig`, part of the "transport
settings" the spec leaves to the HTTP transport. -/
structure TLSConfig where
  CAFile : String
  CertFile : String
  KeyFile : String
  ServerName : String
  InsecureSkipVerify : Bool
  deriving DecidableEq

/-- Modelled from the spec: `http_util.ClientConfig` is declared in `pkg/http`.
The spec describes it as transport settings including an optional BasicAuth;
the other settings are those of the Thanos declaration. -/
structure ClientConfig where
  BasicAuth : BasicAuth
  BearerToken : String
  BearerTokenFile : String
  ProxyURL : String
  TLSConfig : TLSConfig
  deriving DecidableEq

/-- Modelled from the spec: `http_util.FileSDConfig`, a file-based discovery
source (files and a refresh interval). -/
structure FileSDConfig where
  Files : List String
  RefreshInterval : Int
  deriving DecidableEq

/-- Modelled from the spec: `http_util.EndpointsConfig` is declared in
`pkg/http`; the spec lists scheme, path prefix, static addresses and file-based
discovery sources. -/
structure EndpointsConfig where
  StaticAddresses : List String
  FileSDConfigs : List FileSDConfig
  Scheme : String
  PathPrefix : String
  deriving DecidableEq

/-- The type `AlertmanagerConfig`; `Timeout` is a `model.Duration`. -/
structure AlertmanagerConfig where
  HTTPClientConfig : ClientConfig
  EndpointsConfig : EndpointsConfig
  Timeout : Int
  deriving DecidableEq

/-- Zero value of `http_util.BasicAuth`. -/
def BasicAuth.zero : BasicAuth := ⟨"", "", ""⟩

/-- Zero value of `http_util.TLSConfig`. -/
def TLSConfig.zero : TLSConfig := ⟨"", "", "", "", false⟩

/-- Zero value of `http_util.ClientConfig`. -/
def ClientConfig.zero : ClientConfig := ⟨BasicAuth.zero, "", "", "", TLSConfig.zero⟩

/-- Zero value of `http_util.EndpointsConfig`. -/
def EndpointsConfig.zero : EndpointsConfig := ⟨[], [], "", ""⟩

/-- The composite literal `AlertmanagerConfig{}`. -/
def AlertmanagerConfig.zero : AlertmanagerConfig := ⟨ClientConfig.zero, EndpointsConfig.zero, 0⟩

/-- Modelled from the spec: `dns.QType` is a string type declared in
`pkg/discovery/dns`. -/
abbrev QType := String

/-- Modelled from the spec: the record-lookup strategy, discovery prefix `dns`. -/
def dns.A : QType := "dns"

/-- Modelled from the spec: the SRV-lookup strategy, discovery prefix `dnssrv`. -/
def dns.SRV : QType := "dnssrv"

/-- Modelled from the spec: the SRV lookup that skips the A-record resolution,
discovery prefix `dnssrvnoa`. -/
def dns.SRVNoA : QType := "dnssrvnoa"

/-- Modelled from the spec: the constant `defaultAlertmanagerPort` is declared
elsewhere in `pkg/alert`; the spec's example appends `9093`. -/
def defaultAlertmanagerPort : Int := 9093

/-! ## Loading from YAML: `DefaultAlertmanagerConfig`, `UnmarshalYAML`,
`LoadAlertingConfig`

`LoadAlertingConfig` hands the bytes to `yaml.UnmarshalStrict` of
`gopkg.in/yaml.v2`.  A document is represented by what yaml's parser and its
decoder for `AlertingConfig` see in it: a syntax error, no node at all, or a
node tree read against the fields of the target types.  Anchors, aliases,
merge keys and explicit tags are outside this representation.  A value whose
target type is declared outside the sources (`http_util.ClientConfig`,
`http_util.FileSDConfig`, `model.Duration`) is given by the outcome of decoding
it.  Line numbers and message texts of yaml's errors are left out. -/

/-- The constant `time.Second`, in nanoseconds. -/
def time.Second : Int := 1000000000

/-- The type `AlertingConfig`. -/
structure AlertingConfig where
  Alertmanagers : List AlertmanagerConfig
  deriving DecidableEq

/-- The function `DefaultAlertmanagerConfig`. -/
def DefaultAlertmanagerConfig : AlertmanagerConfig :=
  { HTTPClientConfig := ClientConfig.zero
    EndpointsConfig :=
      { EndpointsConfig.zero with
        Scheme := "http"
        StaticAddresses := []
        FileSDConfigs := [] }
    Timeout := time.Second * 10 }

/-- One complaint of the decoder; yaml collects them in a `TypeError`. -/
inductive Issue where
  | cannotUnmarshal (into : String)
  | fieldNotFound (key : String)
  | fieldAlreadySet (key : String)
  | invalidValue (field : String)
  deriving DecidableEq

/-- The errors of `yaml.UnmarshalStrict`: the parser's or the decoder's. -/
inductive YamlError where
  | malformed (msg : String)
  | decoding (issues : List Issue)
  deriving DecidableEq

/-- A node met where a string is expected. -/
inductive Leaf where
  | null
  | scalar (text : String)
  | mapping
  | sequence
  deriving DecidableEq

/-- A node met where a value of a type declared outside the sources is
expected: null, a value yaml decodes without complaint into `v`, or a value it
rejects. -/
inductive Decoded (α : Type) where
  | null
  | value (v : α)
  | invalid
  deriving DecidableEq

/-- A node met where a `[]string` is expected. -/
inductive StringsNode where
  | null
  | scalar (text : String)
  | mapping
  | sequence (items : List Leaf)
  deriving DecidableEq

/-- Modelled from the spec: the yaml tags of `http_util.EndpointsConfig`, inlined
into `AlertmanagerConfig`, are declared in `pkg/http`; the spec names its keys
`scheme`, `path_prefix`, `static_configs` and `file_sd_configs`.  With the tags
`http_config` and `timeout` of `config.go` they are the keys of the mapping of
an entry; any other key names no field. -/
inductive EntryField where
  | http_config (v : Decoded ClientConfig)
  | static_configs (v : StringsNode)
  | file_sd_configs (v : Decoded (List FileSDConfig))
  | scheme (v : Leaf)
  | path_prefix (v : Leaf)
  | timeout (v : Decoded Int)
  | unknown (key : String)
  deriving DecidableEq

/-- A node met where an `AlertmanagerConfig` is expected. -/
inductive EntryNode where
  | null
  | scalar (text : String)
  | sequence
  | mapping (fields : List EntryField)
  deriving DecidableEq

/-- A node met where a `[]AlertmanagerConfig` is expected. -/
inductive EntriesNode where
  | null
  | scalar (text : String)
  | mapping
  | sequence (items : List EntryNode)
  deriving DecidableEq

/-- One key of the top-level mapping, read against `AlertingConfig`. -/
inductive TopField where
  | alertmanagers (v : EntriesNode)
  | unknown (key : String)
  deriving DecidableEq

/-- The root node of a document. -/
inductive DocNode where
  | null
  | scalar (text : String)
  | sequence
  | mapping (fields : List TopField)
  deriving DecidableEq

/-- The bytes given to `LoadAlertingConfig`, as yaml's parser reads them. -/
inductive Document where
  | invalid (msg : String)
  | empty
  | node (root : DocNode)
  deriving DecidableEq

/-- Decoding a node into a string field (`decoder.scalar` and the type errors
of `decoder.mapping` and `decoder.sequence`): the new value, if any, and the
complaints. -/
def decodeString (ty : String) : Leaf → Option String × List Issue
  | .null => (some "", [])
  | .scalar text => (some text, [])
  | .mapping => (none, [.cannotUnmarshal ty])
  | .sequence => (none, [.cannotUnmarshal ty])

/-- The elements of a sequence decoded into a `[]string`: an element that
does not decode is left out (`decoder.sequence`). -/
def decodeStringItems : List Leaf → List String × List Issue
  | [] => ([], [])
  | item :: rest =>
    let (v, issues) := decodeString "string" item
    let (vs, more) := decodeStringItems rest
    (match v with
      | some s => s :: vs
      | none => vs, issues ++ more)

/-- Decoding a node into a `[]string` field. -/
def decodeStrings : StringsNode → Option (List String) × List Issue
  | .null => (some [], [])
  | .scalar _ => (none, [.cannotUnmarshal "[]string"])
  | .mapping => (none, [.cannotUnmarshal "[]string"])
  | .sequence items =>
    let (vs, issues) := decodeStringItems items
    (some vs, issues)

/-- Decoding a node into a field of a type declared outside the sources. -/
def decodeExternal {α : Type} (zero : α) (field : String) :
    Decoded α → Option α × List Issue
  | .null => (some zero, [])
  | .value v => (some v, [])
  | .invalid => (none, [.invalidValue field])

/-- The key of a field of an entry. -/
def EntryField.key : EntryField → String
  | .http_config _ => "http_config"
  | .static_configs _ => "static_configs"
  | .file_sd_configs _ => "file_sd_configs"
  | .scheme _ => "scheme"
  | EntryField.path_prefix _ => "path_prefix"
  | .timeout _ => "timeout"
  | .unknown key => key

/-- Decoding the value of one known key into its field of the entry. -/
def decodeEntryField (f : EntryField) (c : AlertmanagerConfig) :
    AlertmanagerConfig × List Issue :=
  match f with
  | .http_config v =>
    match decodeExternal ClientConfig.zero "http_config" v with
    | (some x, issues) => ({ c with HTTPClientConfig := x }, issues)
    | (none, issues) => (c, issues)
  | .static_configs v =>
    match decodeStrings v with
    | (some x, issues) =>
      ({ c with EndpointsConfig := { c.EndpointsConfig with StaticAddresses := x } }, issues)
    | (none, issues) => (c, issues)
  | .file_sd_configs v =>
    match decodeExternal [] "file_sd_configs" v with
    | (some x, issues) =>
      ({ c with EndpointsConfig := { c.EndpointsConfig with FileSDConfigs := x } }, issues)
    | (none, issues) => (c, issues)
  | .scheme v =>
    match decodeString "string" v with
    | (some x, issues) =>
      ({ c with EndpointsConfig := { c.EndpointsConfig with Scheme := x } }, issues)
    | (none, issues) => (c, issues)
  | EntryField.path_prefix v =>
    match decodeString "string" v with
    | (some x, issues) =>
      ({ c with EndpointsConfig := { c.EndpointsConfig with PathPrefix := x } }, issues)
    | (none, issues) => (c, issues)
  | .timeout v =>
    match decodeExternal 0 "timeout" v with
    | (some x, issues) => ({ c with Timeout := x }, issues)
    | (none, issues) => (c, issues)
  | .unknown _ => (c, [])

/-- The loop of `decoder.mappingStruct` in strict mode over the keys of an
entry; `done` holds the keys already set. -/
def mappingStructEntry :
    List EntryField → List String → AlertmanagerConfig → AlertmanagerConfig × List Issue
  | [], _, c => (c, [])
  | .unknown key :: rest, done, c =>
    let (c, more) := mappingStructEntry rest done c
    (c, .fieldNotFound key :: more)
  | f :: rest, done, c =>
    if f.key ∈ done then
      let (c, more) := mappingStructEntry rest done c
      (c, .fieldAlreadySet f.key :: more)
    else
      let (c, issues) := decodeEntryField f c
      let (c, more) := mappingStructEntry rest (f.key :: done) c
      (c, issues ++ more)

/-- The callback yaml passes to `UnmarshalYAML`, applied to the `plain` value:
it decodes the entry's node into the value it is given and reports the
complaints as one error. -/
def unmarshalPlain (n : EntryNode) (c : AlertmanagerConfig) :
    Except YamlError AlertmanagerConfig :=
  match n with
  | .mapping fields =>
    match mappingStructEntry fields [] c with
    | (c, []) => .ok c
    | (_, issues) => .error (.decoding issues)
  | _ => .error (.decoding [.cannotUnmarshal "alert.plain"])

/-- The method `(*AlertmanagerConfig).UnmarshalYAML`: the receiver after the
call, from the receiver before it and yaml's callback, or the callback's
error. -/
def AlertmanagerConfig.UnmarshalYAML {ε : Type} (_receiver : AlertmanagerConfig)
    (unmarshal : AlertmanagerConfig → Except ε AlertmanagerConfig) :
    Except ε AlertmanagerConfig :=
  let c := DefaultAlertmanagerConfig
  unmarshal c

/-- Decoding one element of the sequence of entries (`decoder.unmarshal` on a
fresh element): a null leaves the zero value, any other node goes to
`UnmarshalYAML`; an element that fails is left out of the slice. -/
def decodeEntry : EntryNode → Option AlertmanagerConfig × List Issue
  | .null => (some AlertmanagerConfig.zero, [])
  | n =>
    match AlertmanagerConfig.UnmarshalYAML AlertmanagerConfig.zero (unmarshalPlain n) with
    | .ok c => (some c, [])
    | .error (.decoding issues) => (none, issues)
    | .error (.malformed _) => (none, [])

/-- The loop of `decoder.sequence` over the entries, in document order. -/
def decodeEntries : List EntryNode → List AlertmanagerConfig × List Issue
  | [] => ([], [])
  | n :: rest =>
    let (v, issues) := decodeEntry n
    let (vs, more) := decodeEntries rest
    (match v with
      | some c => c :: vs
      | none => vs, issues ++ more)

/-- Decoding the value of `alertmanagers`. -/
def decodeAlertmanagers : EntriesNode → Option (List AlertmanagerConfig) × List Issue
  | .null => (some [], [])
  | .scalar _ => (none, [.cannotUnmarshal "[]alert.AlertmanagerConfig"])
  | .mapping => (none, [.cannotUnmarshal "[]alert.AlertmanagerConfig"])
  | .sequence items =>
    let (vs, issues) := decodeEntries items
    (some vs, issues)

/-- The loop of `decoder.mappingStruct` in strict mode over the top-level keys;
`done` says whether `alertmanagers` is already set. -/
def mappingStructTop : List TopField → Bool → AlertingConfig → AlertingConfig × List Issue
  | [], _, cfg => (cfg, [])
  | .unknown key :: rest, done, cfg =>
    let (cfg, more) := mappingStructTop rest done cfg
    (cfg, .fieldNotFound key :: more)
  | .alertmanagers v :: rest, done, cfg =>
    if done then
      let (cfg, more) := mappingStructTop rest done cfg
      (cfg, .fieldAlreadySet "alertmanagers" :: more)
    else
      let (cfg, issues) :=
        match decodeAlertmanagers v with
        | (some x, issues) => ({ cfg with Alertmanagers := x }, issues)
        | (none, issues) => (cfg, issues)
      let (cfg, more) := mappingStructTop rest true cfg
      (cfg, issues ++ more)

/-- The function `yaml.UnmarshalStrict` on a pointer to an `AlertingConfig`
holding `cfg`: the value after the call, or the error.  The partly decoded
value Go leaves behind next to an error is not represented. -/
def yaml.UnmarshalStrict (doc : Document) (cfg : AlertingConfig) :
    Except YamlError AlertingConfig :=
  match doc with
  | .invalid msg => .error (.malformed msg)
  | .empty => .ok cfg
  | .node .null => .ok ⟨[]⟩
  | .node (.scalar _) => .error (.decoding [.cannotUnmarshal "alert.AlertingConfig"])
  | .node .sequence => .error (.decoding [.cannotUnmarshal "alert.AlertingConfig"])
  | .node (.mapping fields) =>
    match mappingStructTop fields false cfg with
    | (cfg, []) => .ok cfg
    | (_, issues) => .error (.decoding issues)

/-- The function `LoadAlertingConfig`. -/
def LoadAlertingConfig (confYaml : Document) : Except YamlError AlertingConfig :=
  let cfg : AlertingConfig := ⟨[]⟩
  match yaml.UnmarshalStrict confYaml cfg with
  | .error err => .error err
  | .ok cfg => .ok cfg

/-- The entry loaded from an entry mapping: the default overlaid with the
mapping's fields. -/
def loadedEntry (fields : List EntryField) : AlertmanagerConfig :=
  (mappingStructEntry fields [] DefaultAlertmanagerConfig).1

/-- Whether a key of an entry names no field of `AlertmanagerConfig`. -/
def EntryField.isUnknown : EntryField → Bool
  | .unknown _ => true
  | _ => false

/-- Whether an entry is a mapping with a key that names no field. -/
def EntryNode.hasUnknown : EntryNode → Bool
  | .mapping fields => fields.any EntryField.isUnknown
  | _ => false

/-- Whether a top-level key names no field of `AlertingConfig`, or is
`alertmanagers` with an entry that has a key naming no field. -/
def TopField.hasUnknown : TopField → Bool
  | .unknown _ => true
  | .alertmanagers (.sequence items) => items.any EntryNode.hasUnknown
  | _ => false

/-- Whether a document holds a key that `AlertingConfig`, at the top level, or
`AlertmanagerConfig`, in the mapping of an entry, does not declare. -/
def hasUnknownField : Document → Bool
  | .node (.mapping fields) => fields.any TopField.hasUnknown
  | _ => false

/-! ## `BuildAlertmanagerConfig` -/

/-- The `for _, qType := range ...` loop of `BuildAlertmanagerConfig`, threading
the variables `scheme` and `host`; the `break` ends the recursion. -/
def discoveryLoop (parsed : URL) : List QType → String × String → String × String
  | [], vars => vars
  | qType :: rest, (scheme, host) =>
    let pre := qType ++ "+"
    if HasPrefix (ToLower scheme) pre then
      let scheme := TrimPrefix scheme pre
      let host := pre ++ parsed.Host
      if qType = dns.A then
        match SplitHostPort parsed.Host with
        | .error _ => (scheme, host ++ ":" ++ Itoa defaultAlertmanagerPort)
        | .ok _ => (scheme, host)
      else (scheme, host)
    else discoveryLoop parsed rest (scheme, host)

/-- The statements of `BuildAlertmanagerConfig` after a successful parse. -/
def buildFromURL (parsed : URL) (timeout : Int) : AlertmanagerConfig :=
  let (scheme, host) :=
    discoveryLoop parsed [dns.A, dns.SRV, dns.SRVNoA] (parsed.Scheme, parsed.Host)
  let basicAuth : BasicAuth :=
    match parsed.User with
    | some user =>
      if UserinfoString (some user) ≠ "" then
        { BasicAuth.zero with
          Username := UserinfoUsername user
          Password := (UserinfoPassword user).1 }
      else BasicAuth.zero
    | none => BasicAuth.zero
  { HTTPClientConfig := { ClientConfig.zero with BasicAuth := basicAuth }
    EndpointsConfig :=
      { EndpointsConfig.zero with
        PathPrefix := parsed.Path
        Scheme := scheme
        StaticAddresses := [host] }
    Timeout := timeout }

/-- The function `BuildAlertmanagerConfig`: the returned configuration and the
returned error (`none` is `nil`). -/
def BuildAlertmanagerConfig (address : String) (timeout : Int) :
    AlertmanagerConfig × Option Error :=
  match Parse address with
  | .error err => (AlertmanagerConfig.zero, some err)
  | .ok parsed => (buildFromURL parsed timeout, none)

/-- The statements of `BuildAlertmanagerConfig` after a successful parse, with
the loop ranging over `order` in place of the source's fixed list of query
types: the variant against which the fixed order is compared. -/
def buildFromURLIn (order : List QType) (parsed : URL) (timeout : Int) : AlertmanagerConfig :=
  let (scheme, host) := discoveryLoop parsed order (parsed.Scheme, parsed.Host)
  let basicAuth : BasicAuth :=
    match parsed.User with
    | some user =>
      if UserinfoString (some user) ≠ "" then
        { BasicAuth.zero with
          Username := UserinfoUsername user
          Password := (UserinfoPassword user).1 }
      else BasicAuth.zero
    | none => BasicAuth.zero
  { HTTPClientConfig := { ClientConfig.zero with BasicAuth := basicAuth }
    EndpointsConfig :=
      { EndpointsConfig.zero with
        PathPrefix := parsed.Path
        Scheme := scheme
        StaticAddresses := [host] }
    Timeout := timeout }

/-- The function `BuildAlertmanagerConfig` with the three strategies tried in
the order `order`. -/
def BuildAlertmanagerConfigIn (order : List QType) (address : String) (timeout : Int) :
    AlertmanagerConfig × Option Error :=
  match Parse address with
  | .error err => (AlertmanagerConfig.zero, some err)
  | .ok parsed => (buildFromURLIn order parsed timeout, none)

/-- The texts `getScheme` accepts as a scheme: a letter followed by letters,
digits and `+-.`. -/
def isSchemeText : List Char → Bool
  | [] => false
  | c :: cs => isLetter c && cs.all fun b => isLetter b || isSchemeTail b

/-- The prefixes `string(qType) + "+"` that the loop of
`BuildAlertmanagerConfig` tries, in its order. -/
def discoveryPrefixes : List String := [dns.A, dns.SRV, dns.SRVNoA].map (· ++ "+")

end Alert

/-! # Properties -/

namespace Alert

/-! ## The discovery prefixes -/

theorem prefix_A : dns.A ++ "+" = "dns+" := rfl

theorem prefix_SRV : dns.SRV ++ "+" = "dnssrv+" := rfl

theorem prefix_SRVNoA : dns.SRVNoA ++ "+" = "dnssrvnoa+" := rfl

theorem hasPrefix_iff (s pre : String) :
    HasPrefix s pre = true ↔ ∃ t, s.data = pre.data ++ t := by
  unfold HasPrefix
  rw [List.isPrefixOf_iff_prefix]
  constructor
  · rintro ⟨t, ht⟩; exact ⟨t, ht.symm⟩
  · rintro ⟨t, ht⟩; exact ⟨t, ht.symm⟩

/-- A prefix of `s` that lower-casing leaves alone is a prefix of the
lower-cased `s`. -/
theorem hasPrefix_toLower (s pre : String) (hp : pre.data.map lowerByte = pre.data)
    (h : HasPrefix s pre = true) : HasPrefix (ToLower s) pre = true := by
  obtain ⟨t, ht⟩ := (hasPrefix_iff s pre).1 h
  refine (hasPrefix_iff _ _).2 ⟨t.map lowerByte, ?_⟩
  simp [ToLower, ht, hp]

theorem srv_not_A (s : String) (h : HasPrefix s "dnssrv+" = true) :
    HasPrefix s "dns+" = false := by
  obtain ⟨t, ht⟩ := (hasPrefix_iff _ _).1 h
  simp [HasPrefix, ht, List.isPrefixOf]

theorem srvnoa_not_A (s : String) (h : HasPrefix s "dnssrvnoa+" = true) :
    HasPrefix s "dns+" = false := by
  obtain ⟨t, ht⟩ := (hasPrefix_iff _ _).1 h
  simp [HasPrefix, ht, List.isPrefixOf]

theorem srvnoa_not_SRV (s : String) (h : HasPrefix s "dnssrvnoa+" = true) :
    HasPrefix s "dnssrv+" = false := by
  obtain ⟨t, ht⟩ := (hasPrefix_iff _ _).1 h
  simp [HasPrefix, ht, List.isPrefixOf]

/-! ## The loop, case by case -/

theorem buildFromURL_endpoints (u : URL) (t : Int) :
    (buildFromURL u t).EndpointsConfig =
      ⟨[(discoveryLoop u [dns.A, dns.SRV, dns.SRVNoA] (u.Scheme, u.Host)).2], [],
        (discoveryLoop u [dns.A, dns.SRV, dns.SRVNoA] (u.Scheme, u.Host)).1, u.Path⟩ := rfl

theorem loop_A (u : URL) (h : HasPrefix (ToLower u.Scheme) "dns+" = true) :
    discoveryLoop u [dns.A, dns.SRV, dns.SRVNoA] (u.Scheme, u.Host) =
      (TrimPrefix u.Scheme "dns+",
        match SplitHostPort u.Host with
        | .error _ => "dns+" ++ u.Host ++ ":" ++ Itoa defaultAlertmanagerPort
        | .ok _ => "dns+" ++ u.Host) := by
  simp only [discoveryLoop, prefix_A, h, if_true]
  cases SplitHostPort u.Host <;> simp

theorem loop_SRV (u : URL) (h : HasPrefix (ToLower u.Scheme) "dnssrv+" = true) :
    discoveryLoop u [dns.A, dns.SRV, dns.SRVNoA] (u.Scheme, u.Host) =
      (TrimPrefix u.Scheme "dnssrv+", "dnssrv+" ++ u.Host) := by
  have hA := srv_not_A _ h
  have hne : ¬ dns.SRV = dns.A := by decide
  simp [discoveryLoop, prefix_A, prefix_SRV, h, hA, hne]

theorem loop_SRVNoA (u : URL) (h : HasPrefix (ToLower u.Scheme) "dnssrvnoa+" = true) :
    discoveryLoop u [dns.A, dns.SRV, dns.SRVNoA] (u.Scheme, u.Host) =
      (TrimPrefix u.Scheme "dnssrvnoa+", "dnssrvnoa+" ++ u.Host) := by
  have hA := srvnoa_not_A _ h
  have hS := srvnoa_not_SRV _ h
  have hne : ¬ dns.SRVNoA = dns.A := by decide
  simp [discoveryLoop, prefix_A, prefix_SRV, prefix_SRVNoA, h, hA, hS, hne]

theorem loop_none (u : URL) (hA : HasPrefix (ToLower u.Scheme) "dns+" = false)
    (hS : HasPrefix (ToLower u.Scheme) "dnssrv+" = false)
    (hN : HasPrefix (ToLower u.Scheme) "dnssrvnoa+" = false) :
    discoveryLoop u [dns.A, dns.SRV, dns.SRVNoA] (u.Scheme, u.Host) = (u.Scheme, u.Host) := by
  simp [discoveryLoop, prefix_A, prefix_SRV, prefix_SRVNoA, hA, hS, hN]

theorem build_ok (address : String) (timeout : Int) (u : URL) (h : Parse address = .ok u) :
    BuildAlertmanagerConfig address timeout = (buildFromURL u timeout, none) := by
  simp [BuildAlertmanagerConfig, h]

theorem trimPrefix_append (s pre : String) (h : HasPrefix s pre = true) :
    pre ++ TrimPrefix s pre = s := by
  obtain ⟨t, ht⟩ := (hasPrefix_iff _ _).1 h
  apply String.ext
  simp [TrimPrefix, h, ht]

/-! ## `url.Parse` returns a lower-case scheme -/

theorem lowerByte_idem_ascii :
    ∀ n, n < 128 → lowerByte (lowerByte (Char.ofNat n)) = lowerByte (Char.ofNat n) := by
  decide

theorem lowerByte_of_big (c : Char) (h : 128 ≤ c.toNat) : lowerByte c = c := by
  unfold lowerByte
  have hZ : ¬ c ≤ 'Z' := by
    intro hc
    rw [Char.le_def] at hc
    have h90 : c.toNat ≤ 90 := hc
    omega
  simp [hZ]

theorem lowerByte_idem (c : Char) : lowerByte (lowerByte c) = lowerByte c := by
  by_cases h : c.toNat < 128
  · have := lowerByte_idem_ascii c.toNat h
    rwa [Char.ofNat_toNat] at this
  · have hb := lowerByte_of_big c (by omega)
    rw [hb, hb]

theorem toLower_idem (s : String) : ToLower (ToLower s) = ToLower s := by
  apply String.ext
  simp [ToLower, lowerByte_idem]

theorem parseAfterScheme_scheme (sch : String) (rest : List Char) (u : URL)
    (h : parseAfterScheme sch rest = .ok u) : u.Scheme = sch := by
  unfold parseAfterScheme at h
  simp only at h
  split_ifs at h
  · cases h; rfl
  · split at h
    · cases h
    · split at h
      · cases h
      · cases h; rfl
  · split at h
    · cases h
    · cases h; rfl

theorem parse_scheme_lower (raw : List Char) (u : URL) (h : parse raw = .ok u) :
    ToLower u.Scheme = u.Scheme := by
  unfold parse at h
  split_ifs at h
  · cases h; rfl
  · split at h
    · cases h
    · rw [parseAfterScheme_scheme _ _ _ h, toLower_idem]

theorem Parse_scheme_lower (address : String) (u : URL) (h : Parse address = .ok u) :
    ToLower u.Scheme = u.Scheme := by
  unfold Parse at h
  simp only at h
  split at h
  · cases h
  · rename_i url hp
    have hl := parse_scheme_lower _ _ hp
    split_ifs at h
    · cases h; exact hl
    · split at h
      · cases h
      · cases h; exact hl

/-- The discovery prefixes in the order the loop tries them. -/
theorem discoveryPrefixes_eq :
    discoveryPrefixes = ["dns+", "dnssrv+", "dnssrvnoa+"] := rfl

/-! ## Static address and scheme under a discovery prefix -/

/-- C1: an address whose parsed scheme starts with `dns+` and whose host has no
port (`net.SplitHostPort` fails on it) is built without error into the single
static address `"dns+" + host + ":" + defaultAlertmanagerPort`, the port being
9093, with the scheme stripped of its leading `dns+`, the URL path as path
prefix and the supplied timeout. -/
theorem dns_prefix_without_port_gets_default_port (address : String) (timeout : Int) (u : URL)
    (hparse : Parse address = .ok u) (hscheme : HasPrefix u.Scheme "dns+" = true)
    (hport : ∃ e, SplitHostPort u.Host = .error e) :
    (BuildAlertmanagerConfig address timeout).2 = none ∧
    (BuildAlertmanagerConfig address timeout).1.EndpointsConfig.StaticAddresses =
      ["dns+" ++ u.Host ++ ":" ++ Itoa defaultAlertmanagerPort] ∧
    Itoa defaultAlertmanagerPort = "9093" ∧
    (BuildAlertmanagerConfig address timeout).1.EndpointsConfig.Scheme =
      TrimPrefix u.Scheme "dns+" ∧
    "dns+" ++ (BuildAlertmanagerConfig address timeout).1.EndpointsConfig.Scheme = u.Scheme ∧
    (BuildAlertmanagerConfig address timeout).1.EndpointsConfig.PathPrefix = u.Path ∧
    (BuildAlertmanagerConfig address timeout).1.Timeout = timeout := by
  obtain ⟨e, he⟩ := hport
  have hlow := hasPrefix_toLower u.Scheme "dns+" rfl hscheme
  rw [build_ok address timeout u hparse]
  refine ⟨rfl, ?_, rfl, ?_, ?_, rfl, rfl⟩
  · simp only [buildFromURL_endpoints, loop_A u hlow, he]
  · simp only [buildFromURL_endpoints, loop_A u hlow]
  · simp only [buildFromURL_endpoints, loop_A u hlow]
    exact trimPrefix_append _ _ hscheme

/-- C1, at the address `dns+http://example.com/api` with a timeout of 5s:
scheme `http`, static address `dns+example.com:9093`, path prefix `/api`,
timeout 5s. -/
theorem dns_prefix_without_port_example :
    (BuildAlertmanagerConfig "dns+http://example.com/api" 5000000000).2 = none ∧
    (BuildAlertmanagerConfig "dns+http://example.com/api" 5000000000).1.EndpointsConfig.StaticAddresses
      = ["dns+example.com:9093"] ∧
    (BuildAlertmanagerConfig "dns+http://example.com/api" 5000000000).1.EndpointsConfig.Scheme
      = "http" ∧
    (BuildAlertmanagerConfig "dns+http://example.com/api" 5000000000).1.EndpointsConfig.PathPrefix
      = "/api" ∧
    (BuildAlertmanagerConfig "dns+http://example.com/api" 5000000000).1.Timeout = 5000000000 := by
  have h := dns_prefix_without_port_gets_default_port "dns+http://example.com/api" 5000000000
    ⟨"dns+http", none, "example.com", "/api"⟩ rfl rfl ⟨_, rfl⟩
  exact ⟨h.1, h.2.1, h.2.2.2.1, h.2.2.2.2.2.1, h.2.2.2.2.2.2⟩

/-- C2: an address whose parsed scheme starts with `dnssrv+` or with
`dnssrvnoa+` is built without error into the single static address made of
that prefix and the parsed host exactly, with or without a port in the host and
never with a default port, and the scheme is the parsed scheme without that
prefix. -/
theorem srv_prefix_never_gets_default_port (address : String) (timeout : Int) (u : URL)
    (pre : String) (hpre : pre = "dnssrv+" ∨ pre = "dnssrvnoa+")
    (hparse : Parse address = .ok u) (hscheme : HasPrefix u.Scheme pre = true) :
    (BuildAlertmanagerConfig address timeout).2 = none ∧
    (BuildAlertmanagerConfig address timeout).1.EndpointsConfig.StaticAddresses =
      [pre ++ u.Host] ∧
    (BuildAlertmanagerConfig address timeout).1.EndpointsConfig.Scheme =
      TrimPrefix u.Scheme pre ∧
    pre ++ (BuildAlertmanagerConfig address timeout).1.EndpointsConfig.Scheme = u.Scheme := by
  rw [build_ok address timeout u hparse]
  rcases hpre with rfl | rfl
  · have hlow := hasPrefix_toLower u.Scheme "dnssrv+" rfl hscheme
    refine ⟨rfl, ?_, ?_, ?_⟩
    · simp only [buildFromURL_endpoints, loop_SRV u hlow]
    · simp only [buildFromURL_endpoints, loop_SRV u hlow]
    · simp only [buildFromURL_endpoints, loop_SRV u hlow]
      exact trimPrefix_append _ _ hscheme
  · have hlow := hasPrefix_toLower u.Scheme "dnssrvnoa+" rfl hscheme
    refine ⟨rfl, ?_, ?_, ?_⟩
    · simp only [buildFromURL_endpoints, loop_SRVNoA u hlow]
    · simp only [buildFromURL_endpoints, loop_SRVNoA u hlow]
    · simp only [buildFromURL_endpoints, loop_SRVNoA u hlow]
      exact trimPrefix_append _ _ hscheme

/-- C2, at `dnssrv+http://example.com/api` (host without a port) and at
`dnssrvnoa+https://example.com:8080` (host with a port). -/
theorem srv_prefix_examples :
    (BuildAlertmanagerConfig "dnssrv+http://example.com/api" 0).1.EndpointsConfig.StaticAddresses
      = ["dnssrv+example.com"] ∧
    (BuildAlertmanagerConfig "dnssrv+http://example.com/api" 0).1.EndpointsConfig.Scheme
      = "http" ∧
    (BuildAlertmanagerConfig "dnssrvnoa+https://example.com:8080" 0).1.EndpointsConfig.StaticAddresses
      = ["dnssrvnoa+example.com:8080"] ∧
    (BuildAlertmanagerConfig "dnssrvnoa+https://example.com:8080" 0).1.EndpointsConfig.Scheme
      = "https" := by
  have h1 := srv_prefix_never_gets_default_port "dnssrv+http://example.com/api" 0
    ⟨"dnssrv+http", none, "example.com", "/api"⟩ "dnssrv+" (Or.inl rfl) rfl rfl
  have h2 := srv_prefix_never_gets_default_port "dnssrvnoa+https://example.com:8080" 0
    ⟨"dnssrvnoa+https", none, "example.com:8080", ""⟩ "dnssrvnoa+" (Or.inr rfl) rfl rfl
  exact ⟨h1.2.1, h1.2.2.1, h2.2.1, h2.2.2.1⟩

/-! ## Which prefix the loop applies -/

theorem mem_discoveryPrefixes (p : String) :
    p ∈ discoveryPrefixes ↔ p = "dns+" ∨ p = "dnssrv+" ∨ p = "dnssrvnoa+" := by
  simp [discoveryPrefixes_eq]

theorem discoveryPrefix_lower (p : String) (hp : p ∈ discoveryPrefixes) :
    p.data.map lowerByte = p.data := by
  rcases (mem_discoveryPrefixes p).1 hp with rfl | rfl | rfl <;> rfl

/-- At most one discovery prefix is a prefix of a given string. -/
theorem discoveryPrefix_unique (s p q : String) (hp : p ∈ discoveryPrefixes)
    (hq : q ∈ discoveryPrefixes) (h1 : HasPrefix s p = true) (h2 : HasPrefix s q = true) :
    p = q := by
  rcases (mem_discoveryPrefixes p).1 hp with rfl | rfl | rfl <;>
    rcases (mem_discoveryPrefixes q).1 hq with rfl | rfl | rfl <;>
    first
      | rfl
      | (have a := srv_not_A s
         have b := srvnoa_not_A s
         have c := srvnoa_not_SRV s
         simp_all)

/-- When a discovery prefix matches, the loop strips it from the scheme. -/
theorem loop_scheme_of_match (u : URL) (p : String) (hp : p ∈ discoveryPrefixes)
    (h : HasPrefix (ToLower u.Scheme) p = true) :
    (discoveryLoop u [dns.A, dns.SRV, dns.SRVNoA] (u.Scheme, u.Host)).1 =
      TrimPrefix u.Scheme p := by
  rcases (mem_discoveryPrefixes p).1 hp with rfl | rfl | rfl
  · rw [loop_A u h]
  · rw [loop_SRV u h]
  · rw [loop_SRVNoA u h]

/-- When no discovery prefix matches, the loop changes nothing. -/
theorem loop_of_no_match (u : URL)
    (h : ∀ p ∈ discoveryPrefixes, HasPrefix (ToLower u.Scheme) p = false) :
    discoveryLoop u [dns.A, dns.SRV, dns.SRVNoA] (u.Scheme, u.Host) = (u.Scheme, u.Host) :=
  loop_none u (h _ ((mem_discoveryPrefixes _).2 (Or.inl rfl)))
    (h _ ((mem_discoveryPrefixes _).2 (Or.inr (Or.inl rfl))))
    (h _ ((mem_discoveryPrefixes _).2 (Or.inr (Or.inr rfl))))

theorem hasPrefix_of_append (s p q : String) (h : HasPrefix s (p ++ q) = true) :
    HasPrefix s p = true := by
  obtain ⟨t, ht⟩ := (hasPrefix_iff _ _).1 h
  exact (hasPrefix_iff _ _).2 ⟨q.data ++ t, by simp [ht]⟩

theorem hasPrefix_trimPrefix_iff (s p q : String) (hp : HasPrefix s p = true) :
    HasPrefix (TrimPrefix s p) q = true ↔ HasPrefix s (p ++ q) = true := by
  obtain ⟨t, ht⟩ := (hasPrefix_iff _ _).1 hp
  simp only [hasPrefix_iff, TrimPrefix, hp, if_true, ht, String.data_append,
    List.drop_left, List.append_assoc, List.append_cancel_left_eq]

/-- C3 as stated fails: for the address `dns+dns+http://host` the call succeeds
and the returned scheme is `dns+http`, which starts with (and contains) the
discovery prefix `dns+`; likewise `dnssrv+dns+http://host`. -/
theorem scheme_keeps_second_prefix :
    (BuildAlertmanagerConfig "dns+dns+http://host" 0).2 = none ∧
    (BuildAlertmanagerConfig "dns+dns+http://host" 0).1.EndpointsConfig.Scheme = "dns+http" ∧
    HasPrefix (BuildAlertmanagerConfig "dns+dns+http://host" 0).1.EndpointsConfig.Scheme "dns+"
      = true ∧
    (BuildAlertmanagerConfig "dnssrv+dns+http://host" 0).2 = none ∧
    (BuildAlertmanagerConfig "dnssrv+dns+http://host" 0).1.EndpointsConfig.Scheme = "dns+http" := by
  decide

/-- C3, amended: for every address on which `BuildAlertmanagerConfig` succeeds,
the returned scheme starts with a discovery prefix exactly when the parsed
scheme begins with two discovery prefixes in a row; only the first is moved to
the static address. -/
theorem scheme_prefix_free_unless_doubled (address : String) (timeout : Int) (u : URL)
    (hparse : Parse address = .ok u) :
    (∃ q ∈ discoveryPrefixes,
      HasPrefix (BuildAlertmanagerConfig address timeout).1.EndpointsConfig.Scheme q = true) ↔
    (∃ p ∈ discoveryPrefixes, ∃ q ∈ discoveryPrefixes, HasPrefix u.Scheme (p ++ q) = true) := by
  have hl := Parse_scheme_lower address u hparse
  rw [build_ok address timeout u hparse, buildFromURL_endpoints]
  simp only
  by_cases hm : ∃ p ∈ discoveryPrefixes, HasPrefix u.Scheme p = true
  · obtain ⟨p, hp, hsp⟩ := hm
    rw [loop_scheme_of_match u p hp (by rw [hl]; exact hsp)]
    constructor
    · rintro ⟨q, hq, h⟩
      exact ⟨p, hp, q, hq, (hasPrefix_trimPrefix_iff _ _ _ hsp).1 h⟩
    · rintro ⟨p', hp', q, hq, h⟩
      have hpp : p' = p :=
        discoveryPrefix_unique u.Scheme p' p hp' hp (hasPrefix_of_append _ _ _ h) hsp
      subst hpp
      exact ⟨q, hq, (hasPrefix_trimPrefix_iff _ _ _ hsp).2 h⟩
  · have hno : ∀ p ∈ discoveryPrefixes, HasPrefix (ToLower u.Scheme) p = false := by
      intro p hp
      rw [hl]
      by_contra hc
      exact hm ⟨p, hp, by simpa using hc⟩
    rw [loop_of_no_match u hno]
    constructor
    · rintro ⟨q, hq, h⟩
      exact absurd ⟨q, hq, h⟩ hm
    · rintro ⟨p, hp, q, _, h⟩
      exact absurd ⟨p, hp, hasPrefix_of_append _ _ _ h⟩ hm

/-- C3, amended, at `dns+http://host` and at `https://host`: no discovery
prefix is left in the returned scheme. -/
theorem scheme_prefix_free_examples :
    (¬ ∃ q ∈ discoveryPrefixes,
      HasPrefix (BuildAlertmanagerConfig "dns+http://host" 0).1.EndpointsConfig.Scheme q = true) ∧
    (¬ ∃ q ∈ discoveryPrefixes,
      HasPrefix (BuildAlertmanagerConfig "https://host" 0).1.EndpointsConfig.Scheme q = true) :=
  ⟨(scheme_prefix_free_unless_doubled "dns+http://host" 0
      ⟨"dns+http", none, "host", ""⟩ rfl).not.2 (by decide),
   (scheme_prefix_free_unless_doubled "https://host" 0
      ⟨"https", none, "host", ""⟩ rfl).not.2 (by decide)⟩

/-- C4: `BuildAlertmanagerConfig` returns an error exactly when `url.Parse`
fails on the address; the error is then the parser's error itself and the
configuration is the zero `AlertmanagerConfig` (empty scheme, no static
address, empty BasicAuth, zero timeout).  A parsed address never gives an
error: a missing user-info, password or port and an unrecognised prefix are
accepted.  The address `://bad` fails. -/
theorem error_exactly_when_parse_fails (address : String) (timeout : Int) :
    ((BuildAlertmanagerConfig address timeout).2 ≠ none ↔ ∃ e, Parse address = .error e) ∧
    (∀ e, Parse address = .error e →
      BuildAlertmanagerConfig address timeout = (AlertmanagerConfig.zero, some e)) ∧
    (∀ u, Parse address = .ok u → (BuildAlertmanagerConfig address timeout).2 = none) ∧
    AlertmanagerConfig.zero =
      ⟨⟨⟨"", "", ""⟩, "", "", "", ⟨"", "", "", "", false⟩⟩, ⟨[], [], "", ""⟩, 0⟩ ∧
    BuildAlertmanagerConfig "://bad" timeout =
      (AlertmanagerConfig.zero, some ⟨"parse", "://bad", .msg "missing protocol scheme"⟩) ∧
    (BuildAlertmanagerConfig "http://host" timeout).2 = none ∧
    (BuildAlertmanagerConfig "http://user@host:9093" timeout).2 = none ∧
    (BuildAlertmanagerConfig "x+http://host:9093" timeout).2 = none := by
  refine ⟨?_, ?_, ?_, rfl, rfl, rfl, rfl, rfl⟩
  · unfold BuildAlertmanagerConfig
    cases Parse address <;> simp
  · intro e he
    simp [BuildAlertmanagerConfig, he]
  · intro u hu
    simp [BuildAlertmanagerConfig, hu]

/-! ## Addresses without a scheme or a host -/

theorem cut_cons_ne (c x : Char) (xs : List Char) (h : x ≠ c) :
    cut c (x :: xs) = (x :: (cut c xs).1, (cut c xs).2) := by
  unfold cut
  simp only [indexByte, h, if_false]
  cases indexByte c xs <;> simp

theorem parse_colon_fails (w : List Char) : ∃ e, parse (':' :: w) = .error e := by
  unfold parse
  split_ifs with h1 h2
  · exact ⟨_, rfl⟩
  · simp at h2
  · exact ⟨_, rfl⟩

/-- An address that begins with a colon is rejected by `url.Parse`. -/
theorem Parse_colon_fails (rest : String) : ∃ e, Parse (":" ++ rest) = .error e := by
  unfold Parse
  have hd : (":" ++ rest).data = ':' :: rest.data := by simp
  rw [hd, cut_cons_ne '#' ':' rest.data (by decide)]
  obtain ⟨e, he⟩ := parse_colon_fails (cut '#' rest.data).1
  simp only [he]
  exact ⟨_, rfl⟩

/-- C5 as stated fails: the addresses `example.com` and `/just/a/path` (no
scheme, no host), `localhost:9093` (read as scheme `localhost`, no host) and
`http:///path` (no host) are all accepted, and a configuration is returned
with a nil error. -/
theorem schemeless_and_hostless_addresses_accepted :
    (BuildAlertmanagerConfig "example.com" 0).2 = none ∧
    (BuildAlertmanagerConfig "/just/a/path" 0).2 = none ∧
    (BuildAlertmanagerConfig "localhost:9093" 0).2 = none ∧
    (BuildAlertmanagerConfig "http:///path" 0).2 = none := by
  decide

/-- C5, amended: only what `url.Parse` rejects is an error.  Every address that
begins with a colon (an empty scheme, as in `://bad`) fails and returns the
zero configuration, whereas an address that merely lacks a scheme or a host
is built with what was parsed: `example.com` and `/just/a/path` give the
empty scheme, the empty static address and the text as path prefix,
`localhost:9093` gives scheme `localhost` and `http:///path` gives scheme
`http`, both with the empty static address. -/
theorem only_unparsable_addresses_fail (rest : String) (timeout : Int) :
    ((BuildAlertmanagerConfig (":" ++ rest) timeout).2 ≠ none ∧
      (BuildAlertmanagerConfig (":" ++ rest) timeout).1 = AlertmanagerConfig.zero) ∧
    BuildAlertmanagerConfig "example.com" timeout =
      (⟨ClientConfig.zero, ⟨[""], [], "", "example.com"⟩, timeout⟩, none) ∧
    BuildAlertmanagerConfig "/just/a/path" timeout =
      (⟨ClientConfig.zero, ⟨[""], [], "", "/just/a/path"⟩, timeout⟩, none) ∧
    BuildAlertmanagerConfig "localhost:9093" timeout =
      (⟨ClientConfig.zero, ⟨[""], [], "localhost", ""⟩, timeout⟩, none) ∧
    BuildAlertmanagerConfig "http:///path" timeout =
      (⟨ClientConfig.zero, ⟨[""], [], "http", "/path"⟩, timeout⟩, none) := by
  refine ⟨?_, rfl, rfl, rfl, rfl⟩
  obtain ⟨e, he⟩ := Parse_colon_fails rest
  simp [BuildAlertmanagerConfig, he]

/-! ## BasicAuth -/

theorem buildFromURL_basicAuth (u : URL) (t : Int) :
    (buildFromURL u t).HTTPClientConfig.BasicAuth =
      match u.User with
      | some user =>
        if UserinfoString (some user) ≠ "" then
          ⟨UserinfoUsername user, (UserinfoPassword user).1, ""⟩
        else BasicAuth.zero
      | none => BasicAuth.zero := by
  unfold buildFromURL
  cases u.User <;> rfl

theorem escape_eq_nil (s : List Char) (mode : Encoding) (h : escape s mode = []) : s = [] := by
  cases s with
  | nil => rfl
  | cons c cs =>
    unfold escape at h
    simp only [List.flatMap_cons] at h
    split_ifs at h <;> simp at h

/-- C6: for every address that parses, the call succeeds and BasicAuth is read
off the URL's user-info: user and password when both are there, the user and
the empty password when no password is set, and the empty BasicAuth when there
is no user-info. -/
theorem basic_auth_from_userinfo (address : String) (timeout : Int) (u : URL)
    (hparse : Parse address = .ok u) :
    (BuildAlertmanagerConfig address timeout).2 = none ∧
    (∀ user pass, u.User = some ⟨user, some pass⟩ →
      (BuildAlertmanagerConfig address timeout).1.HTTPClientConfig.BasicAuth =
        ⟨user, pass, ""⟩) ∧
    (∀ user, u.User = some ⟨user, none⟩ →
      (BuildAlertmanagerConfig address timeout).1.HTTPClientConfig.BasicAuth =
        ⟨user, "", ""⟩) ∧
    (u.User = none →
      (BuildAlertmanagerConfig address timeout).1.HTTPClientConfig.BasicAuth = ⟨"", "", ""⟩) := by
  rw [build_ok address timeout u hparse]
  refine ⟨rfl, ?_, ?_, ?_⟩
  · intro user pass hu
    have hne : UserinfoString (some ⟨user, some pass⟩) ≠ "" := by
      intro h
      have hd := congrArg String.data h
      simp [UserinfoString] at hd
    simp only [buildFromURL_basicAuth, hu]
    rw [if_pos hne]
    rfl
  · intro user hu
    simp only [buildFromURL_basicAuth, hu]
    by_cases hs : UserinfoString (some ⟨user, none⟩) = ""
    · have hd := congrArg String.data hs
      simp only [UserinfoString] at hd
      have hnil : user.data = [] := escape_eq_nil _ _ hd
      have huser : user = "" := String.ext hnil
      subst huser
      rw [if_neg (not_not.2 hs)]
      rfl
    · rw [if_pos hs]
      rfl
  · intro hu
    simp only [buildFromURL_basicAuth, hu]
    rfl

/-- C6, at `https://user:pw@am.internal:9095` (user and password), at
`http://user@host` (no password) and at `http://host` (no user-info). -/
theorem basic_auth_examples :
    (BuildAlertmanagerConfig "https://user:pw@am.internal:9095" 0).1.HTTPClientConfig.BasicAuth
      = ⟨"user", "pw", ""⟩ ∧
    (BuildAlertmanagerConfig "http://user@host" 0).1.HTTPClientConfig.BasicAuth
      = ⟨"user", "", ""⟩ ∧
    (BuildAlertmanagerConfig "http://user@host" 0).2 = none ∧
    (BuildAlertmanagerConfig "http://host" 0).1.HTTPClientConfig.BasicAuth = ⟨"", "", ""⟩ :=
  ⟨(basic_auth_from_userinfo "https://user:pw@am.internal:9095" 0
      ⟨"https", some ⟨"user", some "pw"⟩, "am.internal:9095", ""⟩ rfl).2.1 "user" "pw" rfl,
   (basic_auth_from_userinfo "http://user@host" 0
      ⟨"http", some ⟨"user", none⟩, "host", ""⟩ rfl).2.2.1 "user" rfl,
   (basic_auth_from_userinfo "http://user@host" 0
      ⟨"http", some ⟨"user", none⟩, "host", ""⟩ rfl).1,
   (basic_auth_from_userinfo "http://host" 0 ⟨"http", none, "host", ""⟩ rfl).2.2.2 rfl⟩

/-- C7: for every address that parses and whose scheme does not start, in any
letter case, with `dns+`, `dnssrv+` or `dnssrvnoa+`, the call succeeds with the
parsed scheme as scheme and the parsed host as the only static address, both
unchanged. -/
theorem no_prefix_leaves_scheme_and_host (address : String) (timeout : Int) (u : URL)
    (hparse : Parse address = .ok u)
    (hA : HasPrefix (ToLower u.Scheme) "dns+" = false)
    (hS : HasPrefix (ToLower u.Scheme) "dnssrv+" = false)
    (hN : HasPrefix (ToLower u.Scheme) "dnssrvnoa+" = false) :
    (BuildAlertmanagerConfig address timeout).2 = none ∧
    (BuildAlertmanagerConfig address timeout).1.EndpointsConfig.Scheme = u.Scheme ∧
    (BuildAlertmanagerConfig address timeout).1.EndpointsConfig.StaticAddresses = [u.Host] := by
  rw [build_ok address timeout u hparse]
  simp only [buildFromURL_endpoints, loop_none u hA hS hN]
  exact ⟨trivial, trivial, trivial⟩

/-- C7, at `https://user:pw@am.internal:9095` and at the unrecognised prefix of
`x+http://host`. -/
theorem no_prefix_examples :
    (BuildAlertmanagerConfig "https://user:pw@am.internal:9095" 0).1.EndpointsConfig.Scheme
      = "https" ∧
    (BuildAlertmanagerConfig "https://user:pw@am.internal:9095" 0).1.EndpointsConfig.StaticAddresses
      = ["am.internal:9095"] ∧
    (BuildAlertmanagerConfig "x+http://host" 0).2 = none ∧
    (BuildAlertmanagerConfig "x+http://host" 0).1.EndpointsConfig.Scheme = "x+http" ∧
    (BuildAlertmanagerConfig "x+http://host" 0).1.EndpointsConfig.StaticAddresses = ["host"] := by
  have h1 := no_prefix_leaves_scheme_and_host "https://user:pw@am.internal:9095" 0
    ⟨"https", some ⟨"user", some "pw"⟩, "am.internal:9095", ""⟩ rfl rfl rfl rfl
  have h2 := no_prefix_leaves_scheme_and_host "x+http://host" 0
    ⟨"x+http", none, "host", ""⟩ rfl rfl rfl rfl
  exact ⟨h1.2.1, h1.2.2, h2.1, h2.2.1, h2.2.2⟩

/-- C8: for every address that parses and every timeout, zero and negative
ones included, the result has exactly one static address, the URL path as path
prefix, the supplied timeout itself, no file-discovery source, and an HTTP
client configuration that is the zero value apart from the user name and the
password of its BasicAuth. -/
theorem build_frame (address : String) (timeout : Int) (u : URL)
    (hparse : Parse address = .ok u) :
    (BuildAlertmanagerConfig address timeout).2 = none ∧
    (BuildAlertmanagerConfig address timeout).1.EndpointsConfig.StaticAddresses.length = 1 ∧
    (BuildAlertmanagerConfig address timeout).1.EndpointsConfig.PathPrefix = u.Path ∧
    (BuildAlertmanagerConfig address timeout).1.Timeout = timeout ∧
    (BuildAlertmanagerConfig address timeout).1.EndpointsConfig.FileSDConfigs = [] ∧
    (BuildAlertmanagerConfig address timeout).1.HTTPClientConfig =
      { ClientConfig.zero with
        BasicAuth :=
          { BasicAuth.zero with
            Username := (BuildAlertmanagerConfig address timeout).1.HTTPClientConfig.BasicAuth.Username
            Password := (BuildAlertmanagerConfig address timeout).1.HTTPClientConfig.BasicAuth.Password } } := by
  rw [build_ok address timeout u hparse]
  refine ⟨rfl, ?_, ?_, rfl, ?_, ?_⟩
  · simp only [buildFromURL_endpoints, List.length_singleton]
  · simp only [buildFromURL_endpoints]
  · simp only [buildFromURL_endpoints]
  · have hb := buildFromURL_basicAuth u timeout
    have hc : (buildFromURL u timeout).HTTPClientConfig =
        { ClientConfig.zero with
          BasicAuth := (buildFromURL u timeout).HTTPClientConfig.BasicAuth } := rfl
    have hp : (buildFromURL u timeout).HTTPClientConfig.BasicAuth.PasswordFile = "" := by
      rw [hb]
      cases u.User with
      | none => rfl
      | some user =>
        simp only
        split_ifs <;> rfl
    rw [hc]
    simp only
    congr 1
    cases hba : (buildFromURL u timeout).HTTPClientConfig.BasicAuth with
    | mk a b c =>
      rw [hba] at hp
      simp only at hp
      subst hp
      rfl

/-- C8, at `dns+http://example.com/api` with the timeouts 0 and -1s: the
timeout is returned as given. -/
theorem build_frame_examples :
    (BuildAlertmanagerConfig "dns+http://example.com/api" 0).1.Timeout = 0 ∧
    (BuildAlertmanagerConfig "dns+http://example.com/api" (-1000000000)).1.Timeout
      = -1000000000 ∧
    (BuildAlertmanagerConfig "dns+http://example.com/api" 0).1.EndpointsConfig.PathPrefix
      = "/api" ∧
    (BuildAlertmanagerConfig "dns+http://example.com/api" 0).1.EndpointsConfig.StaticAddresses.length
      = 1 := by
  have h1 := build_frame "dns+http://example.com/api" 0
    ⟨"dns+http", none, "example.com", "/api"⟩ rfl
  have h2 := build_frame "dns+http://example.com/api" (-1000000000)
    ⟨"dns+http", none, "example.com", "/api"⟩ rfl
  exact ⟨h1.2.2.2.1, h2.2.2.2.1, h1.2.2.1, h1.2.1⟩

/-! ## Addresses that differ only in the letter case of the scheme -/

theorem schemeChar_ascii : ∀ n, n < 128 →
    (isLetter (Char.ofNat n) || isSchemeTail (Char.ofNat n)) = true →
    (decide ((Char.ofNat n).toNat < 32 ∨ (Char.ofNat n).toNat = 127) = false ∧
      Char.ofNat n ≠ '#' ∧ Char.ofNat n ≠ ':' ∧
      (isLetter (lowerByte (Char.ofNat n)) || isSchemeTail (lowerByte (Char.ofNat n))) = true ∧
      (isLetter (Char.ofNat n) = true → isLetter (lowerByte (Char.ofNat n)) = true)) := by
  decide

theorem char_le_iff (a b : Char) : a ≤ b ↔ a.toNat ≤ b.toNat := Iff.rfl

theorem schemeChar_lt (c : Char) (h : (isLetter c || isSchemeTail c) = true) :
    c.toNat < 128 := by
  by_contra hc
  have hbig : 128 ≤ c.toNat := by omega
  have h1 : ¬ c ≤ 'z' := by rw [char_le_iff]; show ¬ c.toNat ≤ 122; omega
  have h2 : ¬ c ≤ 'Z' := by rw [char_le_iff]; show ¬ c.toNat ≤ 90; omega
  have h3 : ¬ c ≤ '9' := by rw [char_le_iff]; show ¬ c.toNat ≤ 57; omega
  have h4 : c ≠ '+' := by rintro rfl; revert hbig; decide
  have h5 : c ≠ '-' := by rintro rfl; revert hbig; decide
  have h6 : c ≠ '.' := by rintro rfl; revert hbig; decide
  simp [isLetter, isSchemeTail, h1, h2, h3, h4, h5, h6] at h

/-- A scheme byte is no control byte, is neither `#` nor `:`, and stays a scheme
byte (a letter stays a letter) under lower-casing. -/
theorem schemeChar_facts (c : Char) (h : (isLetter c || isSchemeTail c) = true) :
    decide (c.toNat < 32 ∨ c.toNat = 127) = false ∧ c ≠ '#' ∧ c ≠ ':' ∧
      (isLetter (lowerByte c) || isSchemeTail (lowerByte c)) = true ∧
      (isLetter c = true → isLetter (lowerByte c) = true) := by
  have hs := schemeChar_ascii c.toNat (schemeChar_lt c h)
  rw [Char.ofNat_toNat] at hs
  exact hs h

theorem getSchemeLoop_tail (raw : List Char) (r : List Char) :
    ∀ (cs seen : List Char), cs.all (fun b => isLetter b || isSchemeTail b) = true →
      getSchemeLoop raw false seen (cs ++ ':' :: r) = .ok (seen ++ cs, r)
  | [], seen, _ => by
    have h1 : isLetter ':' = false := by decide
    have h2 : isSchemeTail ':' = false := by decide
    simp [getSchemeLoop, h1, h2]
  | c :: cs, seen, h => by
    simp only [List.all_cons, Bool.and_eq_true] at h
    have ih := getSchemeLoop_tail raw r cs (seen ++ [c]) h.2
    have step : getSchemeLoop raw false seen (c :: (cs ++ ':' :: r)) =
        getSchemeLoop raw false (seen ++ [c]) (cs ++ ':' :: r) := by
      by_cases hl : isLetter c = true
      · simp [getSchemeLoop, hl]
      · have ht : isSchemeTail c = true := by simpa [hl] using h.1
        simp [getSchemeLoop, hl, ht]
    rw [List.cons_append, step, ih]
    simp

theorem getScheme_schemeText (s r : List Char) (h : isSchemeText s = true) :
    getScheme (s ++ ':' :: r) = .ok (s, r) := by
  cases s with
  | nil => simp [isSchemeText] at h
  | cons c cs =>
    simp only [isSchemeText, Bool.and_eq_true] at h
    have ht := getSchemeLoop_tail (c :: cs ++ ':' :: r) r cs [c] h.2
    simp only [getScheme, List.cons_append, getSchemeLoop, h.1, if_true]
    simpa using ht

theorem schemeText_all (s : List Char) (h : isSchemeText s = true) :
    s.all (fun b => isLetter b || isSchemeTail b) = true := by
  cases s with
  | nil => simp [isSchemeText] at h
  | cons c cs =>
    simp only [isSchemeText, Bool.and_eq_true] at h
    simp only [List.all_cons, Bool.and_eq_true]
    exact ⟨by simp [h.1], h.2⟩

theorem ctl_schemeText (cs r : List Char)
    (h : cs.all (fun b => isLetter b || isSchemeTail b) = true) :
    stringContainsCTLByte (cs ++ ':' :: r) = stringContainsCTLByte r := by
  induction cs with
  | nil =>
    have h1 : decide (':'.toNat < 32 ∨ ':'.toNat = 127) = false := by decide
    simp only [stringContainsCTLByte, List.nil_append, List.any_cons, h1, Bool.false_or]
  | cons c cs ih =>
    simp only [List.all_cons, Bool.and_eq_true] at h
    have hc := (schemeChar_facts c h.1).1
    have ih' := ih h.2
    simp only [stringContainsCTLByte] at ih' ⊢
    simp only [List.cons_append, List.any_cons, hc, Bool.false_or, ih']

theorem cut_schemeText (cs r : List Char)
    (h : cs.all (fun b => isLetter b || isSchemeTail b) = true) :
    cut '#' (cs ++ ':' :: r) = (cs ++ ':' :: (cut '#' r).1, (cut '#' r).2) := by
  induction cs with
  | nil => simpa using cut_cons_ne '#' ':' r (by decide)
  | cons c cs ih =>
    simp only [List.all_cons, Bool.and_eq_true] at h
    have hc := (schemeChar_facts c h.1).2.1
    rw [List.cons_append, cut_cons_ne '#' c _ hc, ih h.2]
    rfl

theorem schemeText_lower (s : List Char) (h : isSchemeText s = true) :
    isSchemeText (s.map lowerByte) = true := by
  cases s with
  | nil => simp [isSchemeText] at h
  | cons c cs =>
    simp only [isSchemeText, Bool.and_eq_true] at h
    simp only [List.map_cons, isSchemeText, Bool.and_eq_true, List.all_map]
    refine ⟨(schemeChar_facts c (by simp [h.1])).2.2.2.2 h.1, ?_⟩
    rw [List.all_eq_true] at h ⊢
    intro b hb
    exact (schemeChar_facts b (h.2 b hb)).2.2.2.1

theorem parse_schemeText (s r : List Char) (h : isSchemeText s = true) :
    parse (s ++ ':' :: r) =
      if stringContainsCTLByte r then .error (.msg "net/url: invalid control character in URL")
      else parseAfterScheme (ToLower ⟨s⟩) r := by
  have hne : s ++ ':' :: r ≠ ['*'] := by
    cases s with
    | nil => simp [isSchemeText] at h
    | cons c cs => cases cs <;> simp
  unfold parse
  rw [ctl_schemeText s r (schemeText_all s h), if_neg hne, getScheme_schemeText s r h]

/-- What `url.Parse` returns for `scheme:rest`, forgetting the error value: it
depends on the scheme only through its lower-case form. -/
theorem Parse_schemeText (s rest : String) (h : isSchemeText s.data = true) :
    (Parse (s ++ ":" ++ rest)).toOption =
      if stringContainsCTLByte (cut '#' rest.data).1 then none
      else
        match parseAfterScheme (ToLower s) (cut '#' rest.data).1 with
        | .error _ => none
        | .ok url =>
          if (cut '#' rest.data).2 = [] then some url
          else
            match unescape (cut '#' rest.data).2 .encodeFragment with
            | .error _ => none
            | .ok _ => some url := by
  have hd : (s ++ ":" ++ rest).data = s.data ++ ':' :: rest.data := by simp
  unfold Parse
  rw [hd, cut_schemeText s.data rest.data (schemeText_all _ h)]
  simp only [parse_schemeText s.data _ h]
  rw [show (⟨s.data⟩ : String) = s from rfl]
  by_cases hc : stringContainsCTLByte (cut '#' rest.data).1 = true
  · simp only [hc, if_true]
    rfl
  · simp only [hc, if_false]
    cases parseAfterScheme (ToLower s) (cut '#' rest.data).1 with
    | error e => rfl
    | ok url =>
      simp only
      by_cases hf : (cut '#' rest.data).2 = []
      · simp only [hf, if_true]
        rfl
      · simp only [hf, if_false]
        cases unescape (cut '#' rest.data).2 .encodeFragment <;> rfl

theorem Parse_schemeText_scheme (s rest : String) (u : URL) (h : isSchemeText s.data = true)
    (hparse : Parse (s ++ ":" ++ rest) = .ok u) : u.Scheme = ToLower s := by
  have ht := Parse_schemeText s rest h
  rw [hparse] at ht
  simp only [Except.toOption] at ht
  by_cases hc : stringContainsCTLByte (cut '#' rest.data).1 = true
  · rw [if_pos hc] at ht
    cases ht
  · rw [if_neg hc] at ht
    cases hp : parseAfterScheme (ToLower s) (cut '#' rest.data).1 with
    | error e =>
      rw [hp] at ht
      cases ht
    | ok url =>
      rw [hp] at ht
      simp only at ht
      have hu : u = url := by
        by_cases hf : (cut '#' rest.data).2 = []
        · rw [if_pos hf] at ht
          exact Option.some.inj ht
        · rw [if_neg hf] at ht
          cases hq : unescape (cut '#' rest.data).2 .encodeFragment with
          | error e =>
            rw [hq] at ht
            cases ht
          | ok v =>
            rw [hq] at ht
            exact Option.some.inj ht
      rw [hu]
      exact parseAfterScheme_scheme _ _ _ hp

theorem build_of_same_toOption (a b : String) (t : Int)
    (h : (Parse a).toOption = (Parse b).toOption) :
    (BuildAlertmanagerConfig a t).1 = (BuildAlertmanagerConfig b t).1 ∧
    ((BuildAlertmanagerConfig a t).2 = none ↔ (BuildAlertmanagerConfig b t).2 = none) := by
  unfold BuildAlertmanagerConfig
  cases ha : Parse a <;> cases hb : Parse b <;> simp_all [Except.toOption]

/-- When a discovery prefix matches, the loop puts it in front of the host,
followed for `dns+` by the default port when the host has none. -/
theorem loop_host_of_match (u : URL) (p : String) (hp : p ∈ discoveryPrefixes)
    (h : HasPrefix (ToLower u.Scheme) p = true) :
    (discoveryLoop u [dns.A, dns.SRV, dns.SRVNoA] (u.Scheme, u.Host)).2 = p ++ u.Host ∨
    (discoveryLoop u [dns.A, dns.SRV, dns.SRVNoA] (u.Scheme, u.Host)).2 =
      p ++ u.Host ++ ":" ++ Itoa defaultAlertmanagerPort := by
  rcases (mem_discoveryPrefixes p).1 hp with rfl | rfl | rfl
  · rw [loop_A u h]
    cases SplitHostPort u.Host
    · exact Or.inr rfl
    · exact Or.inl rfl
  · rw [loop_SRV u h]
    exact Or.inl rfl
  · rw [loop_SRVNoA u h]
    exact Or.inl rfl

/-- C9 as stated fails: the address `DNS+http://Host` has the all-lower-case
spelling `dns+http://host`; both are built without error, the first into the
static address `dns+Host:9093`, the second into `dns+host:9093`.  Only the
scheme is lower-cased by `url.Parse`; the host keeps its letter case. -/
theorem lower_cased_address_gives_other_host :
    ToLower "DNS+http://Host" = "dns+http://host" ∧
    (BuildAlertmanagerConfig "DNS+http://Host" 0).2 = none ∧
    (BuildAlertmanagerConfig "dns+http://host" 0).2 = none ∧
    (BuildAlertmanagerConfig "DNS+http://Host" 0).1.EndpointsConfig.StaticAddresses
      = ["dns+Host:9093"] ∧
    (BuildAlertmanagerConfig "dns+http://host" 0).1.EndpointsConfig.StaticAddresses
      = ["dns+host:9093"] ∧
    (BuildAlertmanagerConfig "DNS+http://Host" 0).1.EndpointsConfig.StaticAddresses ≠
      (BuildAlertmanagerConfig "dns+http://host" 0).1.EndpointsConfig.StaticAddresses := by
  decide

/-- C9, amended: the discovery prefix is matched whatever the letter case of
the scheme.  For an address `scheme:rest` whose scheme text starts, in any mix
of upper and lower case, with `dns+`, `dnssrv+` or `dnssrvnoa+`, the call
returns the same configuration, and fails or succeeds alike, as for the
address with the scheme spelled in lower case and the rest left as it is; on
success the scheme is the lower-case scheme without the prefix and the static
address is the prefix followed by the host as written (and by the default port
where `dns+` adds it).  When the rest of the address has no upper-case letter,
that address is the all-lower-case spelling of the whole address. -/
theorem prefix_match_ignores_case (scheme rest : String) (timeout : Int) (pre : String)
    (hpre : pre ∈ discoveryPrefixes) (hscheme : isSchemeText scheme.data = true)
    (hmatch : HasPrefix (ToLower scheme) pre = true) :
    (BuildAlertmanagerConfig (scheme ++ ":" ++ rest) timeout).1 =
      (BuildAlertmanagerConfig (ToLower scheme ++ ":" ++ rest) timeout).1 ∧
    ((BuildAlertmanagerConfig (scheme ++ ":" ++ rest) timeout).2 = none ↔
      (BuildAlertmanagerConfig (ToLower scheme ++ ":" ++ rest) timeout).2 = none) ∧
    (∀ u, Parse (scheme ++ ":" ++ rest) = .ok u →
      (BuildAlertmanagerConfig (scheme ++ ":" ++ rest) timeout).1.EndpointsConfig.Scheme =
        TrimPrefix (ToLower scheme) pre ∧
      ((BuildAlertmanagerConfig (scheme ++ ":" ++ rest) timeout).1.EndpointsConfig.StaticAddresses
          = [pre ++ u.Host] ∨
        (BuildAlertmanagerConfig (scheme ++ ":" ++ rest) timeout).1.EndpointsConfig.StaticAddresses
          = [pre ++ u.Host ++ ":" ++ Itoa defaultAlertmanagerPort])) ∧
    (ToLower rest = rest → ToLower (scheme ++ ":" ++ rest) = ToLower scheme ++ ":" ++ rest) := by
  have hlow : isSchemeText (ToLower scheme).data = true := schemeText_lower _ hscheme
  have hsame : (Parse (scheme ++ ":" ++ rest)).toOption =
      (Parse (ToLower scheme ++ ":" ++ rest)).toOption := by
    rw [Parse_schemeText scheme rest hscheme, Parse_schemeText (ToLower scheme) rest hlow,
      toLower_idem]
  obtain ⟨h1, h2⟩ := build_of_same_toOption _ _ timeout hsame
  refine ⟨h1, h2, ?_, ?_⟩
  swap
  · intro hr
    have hd := congrArg String.data hr
    apply String.ext
    simp only [ToLower] at hd ⊢
    have hcolon : lowerByte ':' = ':' := by decide
    simp [hd, hcolon]
  intro u hu
  have hsch : u.Scheme = ToLower scheme := Parse_schemeText_scheme scheme rest u hscheme hu
  have hm : HasPrefix (ToLower u.Scheme) pre = true := by
    rw [hsch, toLower_idem]
    exact hmatch
  rw [build_ok _ timeout u hu]
  simp only [buildFromURL_endpoints]
  refine ⟨?_, ?_⟩
  · rw [loop_scheme_of_match u pre hpre hm, hsch]
  · simpa using loop_host_of_match u pre hpre hm

/-- C9, amended, at `DnsSrv+https://host:1`, `DNS+http://host` and
`DNS+http://Host`: the results are those of `dnssrv+https://host:1`,
`dns+http://host` and `dns+http://Host`. -/
theorem prefix_match_ignores_case_examples :
    (BuildAlertmanagerConfig "DnsSrv+https://host:1" 0).1 =
      (BuildAlertmanagerConfig "dnssrv+https://host:1" 0).1 ∧
    (BuildAlertmanagerConfig "DnsSrv+https://host:1" 0).1.EndpointsConfig.Scheme = "https" ∧
    (BuildAlertmanagerConfig "DNS+http://host" 0).1 =
      (BuildAlertmanagerConfig "dns+http://host" 0).1 ∧
    (BuildAlertmanagerConfig "DNS+http://host" 0).1.EndpointsConfig.Scheme = "http" ∧
    (BuildAlertmanagerConfig "DNS+http://Host" 0).1 =
      (BuildAlertmanagerConfig "dns+http://Host" 0).1 := by
  have h1 := prefix_match_ignores_case "DnsSrv+https" "//host:1" 0 "dnssrv+"
    (by decide) (by decide) (by decide)
  have h2 := prefix_match_ignores_case "DNS+http" "//host" 0 "dns+"
    (by decide) (by decide) (by decide)
  have h3 := prefix_match_ignores_case "DNS+http" "//Host" 0 "dns+"
    (by decide) (by decide) (by decide)
  exact ⟨h1.1, (h1.2.2.1 ⟨"dnssrv+https", none, "host:1", ""⟩ rfl).1, h2.1,
    (h2.2.2.1 ⟨"dns+http", none, "host", ""⟩ rfl).1, h3.1⟩

/-- C10: for every address that parses with a scheme starting with `dns+`, the
static address is `"dns+" + host + ":" + defaultAlertmanagerPort` when
`net.SplitHostPort` fails on the parsed host and exactly `"dns+" + host` when it
succeeds, whatever port it finds; so the default port is appended if and only
if the check fails. -/
theorem dns_default_port_iff_split_fails (address : String) (timeout : Int) (u : URL)
    (hparse : Parse address = .ok u) (hscheme : HasPrefix u.Scheme "dns+" = true) :
    ((∃ e, SplitHostPort u.Host = .error e) →
      (BuildAlertmanagerConfig address timeout).1.EndpointsConfig.StaticAddresses =
        ["dns+" ++ u.Host ++ ":" ++ Itoa defaultAlertmanagerPort]) ∧
    (∀ host port, SplitHostPort u.Host = .ok (host, port) →
      (BuildAlertmanagerConfig address timeout).1.EndpointsConfig.StaticAddresses =
        ["dns+" ++ u.Host]) ∧
    ((BuildAlertmanagerConfig address timeout).1.EndpointsConfig.StaticAddresses =
        ["dns+" ++ u.Host ++ ":" ++ Itoa defaultAlertmanagerPort] ↔
      ∃ e, SplitHostPort u.Host = .error e) := by
  have hlow := hasPrefix_toLower u.Scheme "dns+" rfl hscheme
  rw [build_ok address timeout u hparse]
  simp only [buildFromURL_endpoints, loop_A u hlow]
  cases hs : SplitHostPort u.Host with
  | error e => simp
  | ok hp =>
    refine ⟨by simp, by simp, ?_⟩
    simp only [List.cons.injEq, and_true, reduceCtorEq, exists_false, iff_false]
    intro h
    have hd := congrArg String.data h
    have hl := congrArg List.length hd
    simp [Itoa, defaultAlertmanagerPort] at hl

/-- C10, at `dns+http://example.com:` (the check succeeds with the empty port),
at `dns+http://example.com:1` (an unconventional port) and at
`dns+http://example.com` (the check fails). -/
theorem dns_default_port_examples :
    (BuildAlertmanagerConfig "dns+http://example.com:" 0).1.EndpointsConfig.StaticAddresses
      = ["dns+example.com:"] ∧
    (BuildAlertmanagerConfig "dns+http://example.com:1" 0).1.EndpointsConfig.StaticAddresses
      = ["dns+example.com:1"] ∧
    (BuildAlertmanagerConfig "dns+http://example.com" 0).1.EndpointsConfig.StaticAddresses
      = ["dns+example.com:9093"] :=
  ⟨(dns_default_port_iff_split_fails "dns+http://example.com:" 0
      ⟨"dns+http", none, "example.com:", ""⟩ rfl rfl).2.1 "example.com" "" rfl,
   (dns_default_port_iff_split_fails "dns+http://example.com:1" 0
      ⟨"dns+http", none, "example.com:1", ""⟩ rfl rfl).2.1 "example.com" "1" rfl,
   (dns_default_port_iff_split_fails "dns+http://example.com" 0
      ⟨"dns+http", none, "example.com", ""⟩ rfl rfl).1 ⟨_, rfl⟩⟩

/-- C13: exactly one prefix is applied, once.  For every address that parses
with a scheme starting with a discovery prefix, that prefix is the only one
that matches, the returned scheme is the parsed scheme with this one leading
occurrence removed, so that prefix and returned scheme give back the parsed
scheme, and the static address is the prefix followed by the parsed host (and
by the default port where `dns+` adds it). -/
theorem one_prefix_applied_once (address : String) (timeout : Int) (u : URL) (pre : String)
    (hpre : pre ∈ discoveryPrefixes) (hparse : Parse address = .ok u)
    (hscheme : HasPrefix u.Scheme pre = true) :
    (BuildAlertmanagerConfig address timeout).2 = none ∧
    (∀ q ∈ discoveryPrefixes, HasPrefix u.Scheme q = true → q = pre) ∧
    (BuildAlertmanagerConfig address timeout).1.EndpointsConfig.Scheme =
      TrimPrefix u.Scheme pre ∧
    pre ++ (BuildAlertmanagerConfig address timeout).1.EndpointsConfig.Scheme = u.Scheme ∧
    ((BuildAlertmanagerConfig address timeout).1.EndpointsConfig.StaticAddresses
        = [pre ++ u.Host] ∨
      (BuildAlertmanagerConfig address timeout).1.EndpointsConfig.StaticAddresses
        = [pre ++ u.Host ++ ":" ++ Itoa defaultAlertmanagerPort]) := by
  have hm : HasPrefix (ToLower u.Scheme) pre = true :=
    hasPrefix_toLower _ _ (discoveryPrefix_lower pre hpre) hscheme
  rw [build_ok address timeout u hparse]
  simp only [buildFromURL_endpoints]
  refine ⟨trivial, ?_, ?_, ?_, ?_⟩
  · intro q hq h
    exact discoveryPrefix_unique u.Scheme q pre hq hpre h hscheme
  · exact loop_scheme_of_match u pre hpre hm
  · rw [loop_scheme_of_match u pre hpre hm]
    exact trimPrefix_append _ _ hscheme
  · simpa using loop_host_of_match u pre hpre hm

/-- C13, at `dnssrv+dns+http://host:80`: only the leading `dnssrv+` is taken
off the scheme and put in front of the host. -/
theorem one_prefix_applied_once_example :
    (BuildAlertmanagerConfig "dnssrv+dns+http://host:80" 0).1.EndpointsConfig.Scheme
      = "dns+http" ∧
    "dnssrv+" ++ (BuildAlertmanagerConfig "dnssrv+dns+http://host:80" 0).1.EndpointsConfig.Scheme
      = "dnssrv+dns+http" ∧
    (BuildAlertmanagerConfig "dnssrv+dns+http://host:80" 0).1.EndpointsConfig.StaticAddresses
      = ["dnssrv+host:80"] := by
  have h := one_prefix_applied_once "dnssrv+dns+http://host:80" 0
    ⟨"dnssrv+dns+http", none, "host:80", ""⟩ "dnssrv+" (by decide) rfl rfl
  exact ⟨h.2.2.1, h.2.2.2.1, rfl⟩

/-! ## The order of the strategies -/

theorem buildFromURL_eq_In (u : URL) (t : Int) :
    buildFromURL u t = buildFromURLIn [dns.A, dns.SRV, dns.SRVNoA] u t := rfl

/-- The six orders of the three query types. -/
theorem orders_of_perm (order : List QType) (h : order.Perm [dns.A, dns.SRV, dns.SRVNoA]) :
    order = [dns.A, dns.SRV, dns.SRVNoA] ∨ order = [dns.A, dns.SRVNoA, dns.SRV] ∨
    order = [dns.SRV, dns.A, dns.SRVNoA] ∨ order = [dns.SRV, dns.SRVNoA, dns.A] ∨
    order = [dns.SRVNoA, dns.A, dns.SRV] ∨ order = [dns.SRVNoA, dns.SRV, dns.A] := by
  obtain ⟨a, b, c, rfl⟩ := List.length_eq_three.1 h.length_eq
  have ha : a ∈ [dns.A, dns.SRV, dns.SRVNoA] := h.mem_iff.1 (by simp)
  have hb : b ∈ [dns.A, dns.SRV, dns.SRVNoA] := h.mem_iff.1 (by simp)
  have hc : c ∈ [dns.A, dns.SRV, dns.SRVNoA] := h.mem_iff.1 (by simp)
  have hnd : [a, b, c].Nodup := h.nodup_iff.2 (by decide)
  simp only [List.mem_cons, List.mem_singleton, List.not_mem_nil, or_false] at ha hb hc
  rcases ha with rfl | rfl | rfl <;> rcases hb with rfl | rfl | rfl <;>
    rcases hc with rfl | rfl | rfl <;> revert hnd <;> decide

/-- Whatever the order in which the three prefixes are tried, the loop ends in
the same scheme and host. -/
theorem loop_order_irrelevant (u : URL) (order : List QType)
    (h : order.Perm [dns.A, dns.SRV, dns.SRVNoA]) :
    discoveryLoop u order (u.Scheme, u.Host) =
      discoveryLoop u [dns.A, dns.SRV, dns.SRVNoA] (u.Scheme, u.Host) := by
  have h1 : ¬ dns.SRV = dns.A := by decide
  have h2 : ¬ dns.SRVNoA = dns.A := by decide
  have hAS := srv_not_A (ToLower u.Scheme)
  have hAN := srvnoa_not_A (ToLower u.Scheme)
  have hSN := srvnoa_not_SRV (ToLower u.Scheme)
  cases hA : HasPrefix (ToLower u.Scheme) "dns+" <;>
    cases hS : HasPrefix (ToLower u.Scheme) "dnssrv+" <;>
    cases hN : HasPrefix (ToLower u.Scheme) "dnssrvnoa+" <;>
    simp only [hA, hS, hN, true_implies, reduceCtorEq] at hAS hAN hSN <;>
    rcases orders_of_perm order h with rfl | rfl | rfl | rfl | rfl | rfl <;>
    simp [discoveryLoop, prefix_A, prefix_SRV, prefix_SRVNoA, hA, hS, hN, h1, h2]

/-- C14: the three discovery prefixes exclude one another, at most one of them
is a prefix of a given (lower-cased) scheme, and therefore
`BuildAlertmanagerConfig` returns the same result whatever the order in which
the three strategies are tried. -/
theorem strategy_order_irrelevant (order : List QType) (address : String) (timeout : Int)
    (horder : order.Perm [dns.A, dns.SRV, dns.SRVNoA]) :
    BuildAlertmanagerConfigIn order address timeout = BuildAlertmanagerConfig address timeout ∧
    (∀ scheme p q, p ∈ discoveryPrefixes → q ∈ discoveryPrefixes →
      HasPrefix (ToLower scheme) p = true → HasPrefix (ToLower scheme) q = true → p = q) := by
  constructor
  · unfold BuildAlertmanagerConfigIn BuildAlertmanagerConfig
    cases Parse address with
    | error e => rfl
    | ok u =>
      simp only [buildFromURLIn, buildFromURL, loop_order_irrelevant u order horder]
  · intro scheme p q hp hq h1 h2
    exact discoveryPrefix_unique (ToLower scheme) p q hp hq h1 h2

/-- C14, with the strategies tried in the reverse order on
`dnssrv+http://host` and on `dns+http://host`. -/
theorem strategy_order_examples :
    BuildAlertmanagerConfigIn [dns.SRVNoA, dns.SRV, dns.A] "dnssrv+http://host" 0 =
      BuildAlertmanagerConfig "dnssrv+http://host" 0 ∧
    BuildAlertmanagerConfigIn [dns.SRVNoA, dns.SRV, dns.A] "dns+http://host" 0 =
      BuildAlertmanagerConfig "dns+http://host" 0 ∧
    (BuildAlertmanagerConfigIn [dns.SRVNoA, dns.SRV, dns.A] "dns+http://host"
      0).1.EndpointsConfig.StaticAddresses = ["dns+host:9093"] :=
  ⟨(strategy_order_irrelevant [dns.SRVNoA, dns.SRV, dns.A] "dnssrv+http://host" 0
      (by decide)).1,
   (strategy_order_irrelevant [dns.SRVNoA, dns.SRV, dns.A] "dns+http://host" 0
      (by decide)).1,
   rfl⟩

theorem userinfoString_eq_empty_iff (user : Userinfo) :
    UserinfoString (some user) = "" ↔ user = ⟨"", none⟩ := by
  obtain ⟨name, pw⟩ := user
  cases pw with
  | some p =>
    constructor
    · intro h
      have hd := congrArg String.data h
      simp [UserinfoString] at hd
    · intro h
      cases h
  | none =>
    constructor
    · intro h
      have hd := congrArg String.data h
      simp only [UserinfoString] at hd
      have hn : name = "" := String.ext (escape_eq_nil _ _ hd)
      rw [hn]
    · intro h
      cases h
      rfl

/-- C15: for every address that parses, BasicAuth is filled in exactly when the
URL has a user-info whose text is not empty, that is a user-info other than
the empty user without a password: it then holds the user name and the
password (empty when unset); with the empty user-info, as without any
user-info, BasicAuth stays empty. -/
theorem basic_auth_needs_nonempty_userinfo (address : String) (timeout : Int) (u : URL)
    (hparse : Parse address = .ok u) :
    (∀ user, u.User = some user → UserinfoString (some user) ≠ "" →
      (BuildAlertmanagerConfig address timeout).1.HTTPClientConfig.BasicAuth =
        ⟨user.username, user.password.getD "", ""⟩) ∧
    (∀ user, u.User = some user → UserinfoString (some user) = "" →
      (BuildAlertmanagerConfig address timeout).1.HTTPClientConfig.BasicAuth = ⟨"", "", ""⟩) ∧
    (u.User = none →
      (BuildAlertmanagerConfig address timeout).1.HTTPClientConfig.BasicAuth = ⟨"", "", ""⟩) ∧
    (∀ user, UserinfoString (some user) = "" ↔ user = ⟨"", none⟩) := by
  rw [build_ok address timeout u hparse]
  refine ⟨?_, ?_, ?_, userinfoString_eq_empty_iff⟩
  · intro user hu hs
    simp only [buildFromURL_basicAuth, hu]
    rw [if_pos hs]
    obtain ⟨name, pw⟩ := user
    cases pw <;> rfl
  · intro user hu hs
    simp only [buildFromURL_basicAuth, hu]
    rw [if_neg (not_not.2 hs)]
    rfl
  · intro hu
    simp only [buildFromURL_basicAuth, hu]
    rfl

/-- C15, at `http://:pw@host` (empty user, password `pw`), at `http://@host`
(empty user-info) and at `http://host` (no user-info). -/
theorem basic_auth_userinfo_examples :
    (BuildAlertmanagerConfig "http://:pw@host" 0).1.HTTPClientConfig.BasicAuth
      = ⟨"", "pw", ""⟩ ∧
    (BuildAlertmanagerConfig "http://@host" 0).1.HTTPClientConfig.BasicAuth = ⟨"", "", ""⟩ ∧
    (BuildAlertmanagerConfig "http://@host" 0).1.HTTPClientConfig.BasicAuth =
      (BuildAlertmanagerConfig "http://host" 0).1.HTTPClientConfig.BasicAuth :=
  ⟨(basic_auth_needs_nonempty_userinfo "http://:pw@host" 0
      ⟨"http", some ⟨"", some "pw"⟩, "host", ""⟩ rfl).1 ⟨"", some "pw"⟩ rfl (by decide),
   (basic_auth_needs_nonempty_userinfo "http://@host" 0
      ⟨"http", some ⟨"", none⟩, "host", ""⟩ rfl).2.1 ⟨"", none⟩ rfl rfl,
   rfl⟩

/-- C16: a host is not required.  For every address that parses with the empty
host the call succeeds; with a scheme starting with `dns+` the static address
is `dns+:9093`, and with no discovery prefix it is the empty string. -/
theorem empty_host_accepted (address : String) (timeout : Int) (u : URL)
    (hparse : Parse address = .ok u) (hhost : u.Host = "") :
    (BuildAlertmanagerConfig address timeout).2 = none ∧
    (HasPrefix u.Scheme "dns+" = true →
      (BuildAlertmanagerConfig address timeout).1.EndpointsConfig.StaticAddresses
        = ["dns+:9093"]) ∧
    ((∀ p ∈ discoveryPrefixes, HasPrefix (ToLower u.Scheme) p = false) →
      (BuildAlertmanagerConfig address timeout).1.EndpointsConfig.StaticAddresses = [""]) := by
  rw [build_ok address timeout u hparse]
  refine ⟨rfl, ?_, ?_⟩
  · intro hs
    have hlow := hasPrefix_toLower u.Scheme "dns+" rfl hs
    rw [buildFromURL_endpoints, loop_A u hlow, hhost]
    rfl
  · intro hno
    rw [buildFromURL_endpoints, loop_of_no_match u hno, hhost]

/-- C16, at `dns+http:///api` and at `http:///api`. -/
theorem empty_host_examples :
    (BuildAlertmanagerConfig "dns+http:///api" 0).2 = none ∧
    (BuildAlertmanagerConfig "dns+http:///api" 0).1.EndpointsConfig.StaticAddresses
      = ["dns+:9093"] ∧
    (BuildAlertmanagerConfig "http:///api" 0).2 = none ∧
    (BuildAlertmanagerConfig "http:///api" 0).1.EndpointsConfig.StaticAddresses = [""] := by
  have h1 := empty_host_accepted "dns+http:///api" 0 ⟨"dns+http", none, "", "/api"⟩ rfl rfl
  have h2 := empty_host_accepted "http:///api" 0 ⟨"http", none, "", "/api"⟩ rfl rfl
  exact ⟨h1.1, h1.2.1 rfl, h2.1, h2.2.2 (by decide)⟩

/-! ## Loading: the default and what the document overlays -/

/-- A field that no key of the mapping decodes into keeps its value through
the loop over the mapping. -/
theorem mappingStructEntry_frame {α : Type} (proj : AlertmanagerConfig → α) :
    ∀ (fields : List EntryField) (done : List String) (c : AlertmanagerConfig),
      (∀ f ∈ fields, ∀ c, proj (decodeEntryField f c).1 = proj c) →
      proj (mappingStructEntry fields done c).1 = proj c
  | [], _, _, _ => rfl
  | f :: rest, done, c, h => by
    have hf := h f (List.mem_cons_self _ _)
    have hrest : ∀ g ∈ rest, ∀ c, proj (decodeEntryField g c).1 = proj c :=
      fun g hg => h g (List.mem_cons_of_mem _ hg)
    cases f <;> simp only [mappingStructEntry] <;>
      first
        | exact mappingStructEntry_frame proj rest done c hrest
        | (split_ifs
           · exact mappingStructEntry_frame proj rest done c hrest
           · rw [mappingStructEntry_frame proj rest _ _ hrest]
             exact hf c)

theorem unmarshalYAML_eq {ε : Type} (receiver : AlertmanagerConfig)
    (unmarshal : AlertmanagerConfig → Except ε AlertmanagerConfig) :
    AlertmanagerConfig.UnmarshalYAML receiver unmarshal =
      unmarshal DefaultAlertmanagerConfig := rfl

theorem unmarshalPlain_ok (fields : List EntryField) (c cfg : AlertmanagerConfig)
    (h : unmarshalPlain (.mapping fields) c = .ok cfg) :
    cfg = (mappingStructEntry fields [] c).1 ∧ (mappingStructEntry fields [] c).2 = [] := by
  simp only [unmarshalPlain] at h
  cases hm : mappingStructEntry fields [] c with
  | mk c' issues =>
    rw [hm] at h
    cases issues with
    | nil =>
      simp only at h
      cases h
      exact ⟨rfl, rfl⟩
    | cons i is =>
      simp only at h
      cases h

theorem decodeEntryField_keeps_scheme (f : EntryField) (c : AlertmanagerConfig)
    (h : ∀ v, f ≠ .scheme v) :
    (decodeEntryField f c).1.EndpointsConfig.Scheme = c.EndpointsConfig.Scheme := by
  cases f <;>
    first
      | exact absurd rfl (h _)
      | rfl
      | (simp only [decodeEntryField]; split <;> rfl)

theorem decodeEntryField_keeps_pathPrefix (f : EntryField) (c : AlertmanagerConfig)
    (h : ∀ v, f ≠ EntryField.path_prefix v) :
    (decodeEntryField f c).1.EndpointsConfig.PathPrefix = c.EndpointsConfig.PathPrefix := by
  cases f <;>
    first
      | exact absurd rfl (h _)
      | rfl
      | (simp only [decodeEntryField]; split <;> rfl)

theorem decodeEntryField_keeps_static (f : EntryField) (c : AlertmanagerConfig)
    (h : ∀ v, f ≠ .static_configs v) :
    (decodeEntryField f c).1.EndpointsConfig.StaticAddresses =
      c.EndpointsConfig.StaticAddresses := by
  cases f <;>
    first
      | exact absurd rfl (h _)
      | rfl
      | (simp only [decodeEntryField]; split <;> rfl)

theorem decodeEntryField_keeps_fileSD (f : EntryField) (c : AlertmanagerConfig)
    (h : ∀ v, f ≠ .file_sd_configs v) :
    (decodeEntryField f c).1.EndpointsConfig.FileSDConfigs =
      c.EndpointsConfig.FileSDConfigs := by
  cases f <;>
    first
      | exact absurd rfl (h _)
      | rfl
      | (simp only [decodeEntryField]; split <;> rfl)

theorem decodeEntryField_keeps_timeout (f : EntryField) (c : AlertmanagerConfig)
    (h : ∀ v, f ≠ .timeout v) :
    (decodeEntryField f c).1.Timeout = c.Timeout := by
  cases f <;>
    first
      | exact absurd rfl (h _)
      | rfl
      | (simp only [decodeEntryField]; split <;> rfl)

theorem decodeEntryField_keeps_http (f : EntryField) (c : AlertmanagerConfig)
    (h : ∀ v, f ≠ .http_config v) :
    (decodeEntryField f c).1.HTTPClientConfig = c.HTTPClientConfig := by
  cases f <;>
    first
      | exact absurd rfl (h _)
      | rfl
      | (simp only [decodeEntryField]; split <;> rfl)

/-- C11: `DefaultAlertmanagerConfig` is scheme `http`, no static address, no
file-discovery source, a timeout of 10 seconds and the empty HTTP client
configuration.  `UnmarshalYAML` discards what the receiver held, sets it to
this default and lets yaml's callback decode into it: an entry whose mapping
is empty is loaded as the default exactly, and in an entry that loads every
field whose key the mapping does not have keeps its default value. -/
theorem unmarshal_overlays_default (receiver : AlertmanagerConfig) (fields : List EntryField)
    (cfg : AlertmanagerConfig)
    (h : AlertmanagerConfig.UnmarshalYAML receiver (unmarshalPlain (.mapping fields)) = .ok cfg) :
    DefaultAlertmanagerConfig = ⟨ClientConfig.zero, ⟨[], [], "http", ""⟩, 10000000000⟩ ∧
    (∀ (unmarshal : AlertmanagerConfig → Except YamlError AlertmanagerConfig),
      AlertmanagerConfig.UnmarshalYAML receiver unmarshal =
        unmarshal DefaultAlertmanagerConfig) ∧
    AlertmanagerConfig.UnmarshalYAML receiver (unmarshalPlain (.mapping [])) =
      .ok DefaultAlertmanagerConfig ∧
    LoadAlertingConfig (.node (.mapping [.alertmanagers (.sequence [.mapping [], .mapping []])]))
      = .ok ⟨[DefaultAlertmanagerConfig, DefaultAlertmanagerConfig]⟩ ∧
    cfg = loadedEntry fields ∧
    ((∀ v, EntryField.scheme v ∉ fields) → cfg.EndpointsConfig.Scheme = "http") ∧
    ((∀ v, EntryField.static_configs v ∉ fields) → cfg.EndpointsConfig.StaticAddresses = []) ∧
    ((∀ v, EntryField.file_sd_configs v ∉ fields) → cfg.EndpointsConfig.FileSDConfigs = []) ∧
    ((∀ v, EntryField.path_prefix v ∉ fields) → cfg.EndpointsConfig.PathPrefix = "") ∧
    ((∀ v, EntryField.timeout v ∉ fields) → cfg.Timeout = 10000000000) ∧
    ((∀ v, EntryField.http_config v ∉ fields) → cfg.HTTPClientConfig = ClientConfig.zero) := by
  rw [unmarshalYAML_eq] at h
  obtain ⟨hcfg, -⟩ := unmarshalPlain_ok fields _ cfg h
  refine ⟨rfl, fun _ => rfl, rfl, rfl, hcfg, ?_, ?_, ?_, ?_, ?_, ?_⟩
  · intro hno
    rw [hcfg, mappingStructEntry_frame (fun c => c.EndpointsConfig.Scheme) fields [] _
      (fun f hf c => decodeEntryField_keeps_scheme f c (fun v hv => hno v (hv ▸ hf)))]
    rfl
  · intro hno
    rw [hcfg, mappingStructEntry_frame (fun c => c.EndpointsConfig.StaticAddresses) fields [] _
      (fun f hf c => decodeEntryField_keeps_static f c (fun v hv => hno v (hv ▸ hf)))]
    rfl
  · intro hno
    rw [hcfg, mappingStructEntry_frame (fun c => c.EndpointsConfig.FileSDConfigs) fields [] _
      (fun f hf c => decodeEntryField_keeps_fileSD f c (fun v hv => hno v (hv ▸ hf)))]
    rfl
  · intro hno
    rw [hcfg, mappingStructEntry_frame (fun c => c.EndpointsConfig.PathPrefix) fields [] _
      (fun f hf c => decodeEntryField_keeps_pathPrefix f c (fun v hv => hno v (hv ▸ hf)))]
    rfl
  · intro hno
    rw [hcfg, mappingStructEntry_frame (fun c => c.Timeout) fields [] _
      (fun f hf c => decodeEntryField_keeps_timeout f c (fun v hv => hno v (hv ▸ hf)))]
    rfl
  · intro hno
    rw [hcfg, mappingStructEntry_frame (fun c => c.HTTPClientConfig) fields [] _
      (fun f hf c => decodeEntryField_keeps_http f c (fun v hv => hno v (hv ▸ hf)))]
    rfl

/-- C11, for a receiver that held scheme `ftp` and a timeout of 7ns and the
entry `scheme: https`: the old values are gone, the scheme is the document's
and every other field is the default's. -/
theorem unmarshal_overlays_default_example :
    AlertmanagerConfig.UnmarshalYAML ⟨ClientConfig.zero, ⟨["old"], [], "ftp", "/old"⟩, 7⟩
        (unmarshalPlain (.mapping [.scheme (.scalar "https")])) =
      .ok ⟨ClientConfig.zero, ⟨[], [], "https", ""⟩, 10000000000⟩ ∧
    (⟨ClientConfig.zero, ⟨[], [], "https", ""⟩, 10000000000⟩ : AlertmanagerConfig).Timeout =
      10000000000 :=
  ⟨rfl,
   (unmarshal_overlays_default ⟨ClientConfig.zero, ⟨["old"], [], "ftp", "/old"⟩, 7⟩
      [.scheme (.scalar "https")] ⟨ClientConfig.zero, ⟨[], [], "https", ""⟩, 10000000000⟩
      rfl).2.2.2.2.2.2.2.2.2.1 (by simp)⟩

/-! ## Loading: which documents fail -/

theorem mappingStructEntry_known (f : EntryField) (rest : List EntryField)
    (done : List String) (c : AlertmanagerConfig) (hf : f.isUnknown = false) :
    mappingStructEntry (f :: rest) done c =
      if f.key ∈ done then
        ((mappingStructEntry rest done c).1,
          .fieldAlreadySet f.key :: (mappingStructEntry rest done c).2)
      else
        ((mappingStructEntry rest (f.key :: done) (decodeEntryField f c).1).1,
          (decodeEntryField f c).2 ++
            (mappingStructEntry rest (f.key :: done) (decodeEntryField f c).1).2) := by
  cases f <;> first | (simp [EntryField.isUnknown] at hf; done) | rfl

theorem mappingStructEntry_unknown :
    ∀ (fields : List EntryField) (done : List String) (c : AlertmanagerConfig),
      fields.any EntryField.isUnknown = true → (mappingStructEntry fields done c).2 ≠ []
  | [], _, _, h => by simp at h
  | f :: rest, done, c, h => by
    simp only [List.any_cons, Bool.or_eq_true] at h
    cases hf : f.isUnknown with
    | true =>
      cases f <;> first | (simp [EntryField.isUnknown] at hf; done) | simp [mappingStructEntry]
    | false =>
      rw [hf] at h
      have hrest : rest.any EntryField.isUnknown = true := by simpa using h
      rw [mappingStructEntry_known f rest done c hf]
      split_ifs
      · simp
      · have ih := mappingStructEntry_unknown rest (f.key :: done) (decodeEntryField f c).1 hrest
        intro hnil
        exact ih (List.append_eq_nil.1 hnil).2

theorem decodeEntry_mapping (fields : List EntryField) :
    decodeEntry (.mapping fields) =
      match mappingStructEntry fields [] DefaultAlertmanagerConfig with
      | (c, []) => (some c, [])
      | (_, issues) => (none, issues) := by
  simp only [decodeEntry, unmarshalYAML_eq, unmarshalPlain]
  cases hm : mappingStructEntry fields [] DefaultAlertmanagerConfig with
  | mk c issues => cases issues <;> rfl

theorem decodeEntry_unknown (n : EntryNode) (h : n.hasUnknown = true) :
    (decodeEntry n).2 ≠ [] := by
  cases n with
  | mapping fields =>
    have hu := mappingStructEntry_unknown fields [] DefaultAlertmanagerConfig h
    rw [decodeEntry_mapping]
    cases hm : mappingStructEntry fields [] DefaultAlertmanagerConfig with
    | mk c issues =>
      rw [hm] at hu
      cases issues with
      | nil => exact absurd rfl hu
      | cons i is => simp
  | null => simp [EntryNode.hasUnknown] at h
  | scalar t => simp [EntryNode.hasUnknown] at h
  | sequence => simp [EntryNode.hasUnknown] at h

theorem decodeEntries_unknown :
    ∀ (items : List EntryNode), items.any EntryNode.hasUnknown = true →
      (decodeEntries items).2 ≠ []
  | [], h => by simp at h
  | n :: rest, h => by
    simp only [List.any_cons, Bool.or_eq_true] at h
    simp only [decodeEntries]
    intro hnil
    have hs := List.append_eq_nil.1 hnil
    rcases h with h | h
    · exact decodeEntry_unknown n h hs.1
    · exact decodeEntries_unknown rest h hs.2

theorem mappingStructTop_unknown :
    ∀ (fields : List TopField) (done : Bool) (cfg : AlertingConfig),
      fields.any TopField.hasUnknown = true → (mappingStructTop fields done cfg).2 ≠ []
  | [], _, _, h => by simp at h
  | .unknown key :: rest, done, cfg, _ => by simp [mappingStructTop]
  | .alertmanagers v :: rest, done, cfg, h => by
    simp only [List.any_cons, Bool.or_eq_true] at h
    simp only [mappingStructTop]
    split_ifs
    · simp
    · intro hnil
      have hs := List.append_eq_nil.1 hnil
      rcases h with h | h
      · cases v with
        | sequence items =>
          have hu := decodeEntries_unknown items h
          simp only [decodeAlertmanagers] at hs
          exact hu hs.1
        | null => simp [TopField.hasUnknown] at h
        | scalar t => simp [TopField.hasUnknown] at h
        | mapping => simp [TopField.hasUnknown] at h
      · exact mappingStructTop_unknown rest _ _ h hs.2

theorem decodeEntries_mappings :
    ∀ (entries : List (List EntryField)),
      (decodeEntries (entries.map EntryNode.mapping)).2 = [] →
      (decodeEntries (entries.map EntryNode.mapping)).1 = entries.map loadedEntry
  | [], _ => rfl
  | fs :: rest, h => by
    simp only [List.map_cons, decodeEntries] at h ⊢
    have hs := List.append_eq_nil.1 h
    have ih := decodeEntries_mappings rest hs.2
    rw [decodeEntry_mapping] at hs ⊢
    cases hm : mappingStructEntry fs [] DefaultAlertmanagerConfig with
    | mk c issues =>
      rw [hm] at hs
      cases issues with
      | nil =>
        simp only [ih, loadedEntry, hm]
      | cons i is => simp at hs

theorem load_single_sequence (items : List EntryNode) :
    LoadAlertingConfig (.node (.mapping [.alertmanagers (.sequence items)])) =
      match (decodeEntries items).2 with
      | [] => .ok ⟨(decodeEntries items).1⟩
      | i :: is => .error (.decoding (i :: is)) := by
  simp only [LoadAlertingConfig, yaml.UnmarshalStrict, mappingStructTop, decodeAlertmanagers,
    Bool.false_eq_true, if_false, List.append_nil]
  cases (decodeEntries items).2 <;> rfl

/-- C12 as stated fails: the document `alertmanagers: 5` is valid YAML and has
no key but the recognised `alertmanagers`, and so is the document whose single
entry has a `timeout` that is no duration; `LoadAlertingConfig` fails on
both. -/
theorem recognised_fields_can_still_fail :
    hasUnknownField (.node (.mapping [.alertmanagers (.scalar "5")])) = false ∧
    LoadAlertingConfig (.node (.mapping [.alertmanagers (.scalar "5")])) =
      .error (.decoding [.cannotUnmarshal "[]alert.AlertmanagerConfig"]) ∧
    hasUnknownField
      (.node (.mapping [.alertmanagers (.sequence [.mapping [.timeout .invalid]])])) = false ∧
    LoadAlertingConfig
      (.node (.mapping [.alertmanagers (.sequence [.mapping [.timeout .invalid]])])) =
      .error (.decoding [.invalidValue "timeout"]) :=
  ⟨rfl, rfl, rfl, rfl⟩

/-- C12, amended: `LoadAlertingConfig` fails for every document that is not
valid YAML and for every document with a key that `AlertingConfig`, at the top
level, or `AlertmanagerConfig`, in an entry, does not declare; it may fail for
other documents too (a value that does not fit its field); whenever it returns
no error for a document that lists entries under `alertmanagers`, it returns
the loaded entries in document order. -/
theorem load_fails_on_bad_yaml_and_unknown_fields (doc : Document) :
    (∀ msg, LoadAlertingConfig (.invalid msg) = .error (.malformed msg)) ∧
    (hasUnknownField doc = true → ∃ e, LoadAlertingConfig doc = .error e) ∧
    (∀ (entries : List (List EntryField)) (cfg : AlertingConfig),
      doc = .node (.mapping [.alertmanagers (.sequence (entries.map EntryNode.mapping))]) →
      LoadAlertingConfig doc = .ok cfg → cfg.Alertmanagers = entries.map loadedEntry) ∧
    LoadAlertingConfig (.node (.mapping [.alertmanagers (.sequence
        [.mapping [.scheme (.scalar "https"), .static_configs (.sequence [.scalar "a:9093"])],
         .mapping [.timeout (.value 5000000000)]])])) =
      .ok ⟨[⟨ClientConfig.zero, ⟨["a:9093"], [], "https", ""⟩, 10000000000⟩,
            ⟨ClientConfig.zero, ⟨[], [], "http", ""⟩, 5000000000⟩]⟩ ∧
    (∃ e, LoadAlertingConfig (.node (.mapping [.alertmanagers (.sequence []), .unknown "x"]))
      = .error e) ∧
    (∃ e, LoadAlertingConfig (.node (.mapping [.alertmanagers (.sequence
        [.mapping [.scheme (.scalar "https"), .unknown "schema"]])])) = .error e) := by
  refine ⟨fun _ => rfl, ?_, ?_, rfl, ⟨_, rfl⟩, ⟨_, rfl⟩⟩
  · intro h
    cases doc with
    | invalid msg => simp [hasUnknownField] at h
    | empty => simp [hasUnknownField] at h
    | node root =>
      cases root with
      | mapping fields =>
        have hu := mappingStructTop_unknown fields false ⟨[]⟩ h
        simp only [LoadAlertingConfig, yaml.UnmarshalStrict]
        cases hm : mappingStructTop fields false ⟨[]⟩ with
        | mk cfg issues =>
          rw [hm] at hu
          cases issues with
          | nil => exact absurd rfl hu
          | cons i is => exact ⟨_, rfl⟩
      | null => simp [hasUnknownField] at h
      | scalar t => simp [hasUnknownField] at h
      | sequence => simp [hasUnknownField] at h
  · rintro entries cfg rfl h
    rw [load_single_sequence] at h
    cases hi : (decodeEntries (entries.map EntryNode.mapping)).2 with
    | nil =>
      rw [hi] at h
      simp only [Except.ok.injEq] at h
      rw [← h]
      exact decodeEntries_mappings entries hi
    | cons i is =>
      rw [hi] at h
      cases h

end Alert
